import Mathlib

set_option maxRecDepth 100000

/-!
A shallow embedding of the "A language" transpiler (`src/compiler.c`, v2.4).

Text is modelled as `List Char`.  The compiler's global state
(`g_vars`, `g_blocks`, `g_funcs`, `g_errors`, `g_current_line`,
`g_in_function`, `g_func_indent`, `g_main_code`) is gathered into the
structure `Machine`; the block stack and the function table are stored
head-first (the head of `Machine.blocks` is `g_blocks[g_block_depth-1]`,
the head of `Machine.funcs` is `g_funcs[g_func_count-1]`).

Modelling notes, matching the source:
  * `g_mode` is consulted by the line processor only through
    `is_raw_mode()`, so processing takes the boolean raw flag directly;
    `g_log_mode` is read only inside the `log_*` functions, which write
    exclusively to `stderr` (they never touch compiler state), so the
    diagnostic stream is not part of the machine state.
  * The counted capacity limits (`MAX_VARS`, `MAX_BLOCKS`, `MAX_FUNCS`,
    `MAX_ERRORS`) and the `strncpy` truncations of stored names and
    messages are modelled.  The byte capacities of the three text buffers
    (`g_main_code`, `Function.body`, `g_output`) and the `snprintf`
    truncation at `MAX_LINE` are not: buffers are unbounded lists
    (all inputs considered here are far below those limits).
  * `process_line` copies the input line and cuts it at the first `#`
    before classification, but the handlers for `if`, `while`, `for` and
    `func` receive the caller's original, uncut line - exactly as in the
    source, where `handle_if(original_line, ...)` is called with the
    unmodified buffer.
-/

/- ================= Enumerations and records ================= -/

inductive CompileMode
  | optimized
  | raw
  | debug
  | debug_opt
  | debug_raw
deriving DecidableEq

inductive VarType
  | int
  | float
  | bool
  | string
  | list
  | dict
  | tuple
  | unknown
deriving DecidableEq

/-- Block kinds; the source stores these as the strings
"if", "elif", "else", "while", "for", "for_in", "func" in `Block.type`. -/
inductive BlockKind
  | if_
  | elif_
  | else_
  | while_
  | for_
  | for_in
  | func
deriving DecidableEq

inductive Severity
  | error
  | warning
deriving DecidableEq

structure Variable where
  name : List Char
  type : VarType
  is_const : Bool
deriving DecidableEq

structure Block where
  indent : Nat
  line_num : Nat
  kind : BlockKind
  closed_by_end : Bool
  uses_braces : Bool
deriving DecidableEq

structure Function where
  name : List Char
  body : List Char
deriving DecidableEq

structure CompilerError where
  message : List Char
  line_num : Nat
  severity : Severity
deriving DecidableEq

structure Machine where
  vars : List Variable
  blocks : List Block
  funcs : List Function
  errors : List CompilerError
  current_line : Nat
  in_function : Bool
  func_indent : Nat
  main_code : List Char
deriving DecidableEq

def init_machine : Machine :=
  { vars := [], blocks := [], funcs := [], errors := [],
    current_line := 0, in_function := false, func_indent := 0, main_code := [] }

/- ================= ctype.h predicates (C locale, ASCII) ================= -/

def c_isspace (c : Char) : Bool :=
  c = ' ' || c = '\t' || c = '\n' || c = '\x0b' || c = '\x0c' || c = '\r'

def c_isdigit (c : Char) : Bool :=
  '0' ≤ c && c ≤ '9'

def c_isalpha (c : Char) : Bool :=
  ('a' ≤ c && c ≤ 'z') || ('A' ≤ c && c ≤ 'Z')

def c_isalnum (c : Char) : Bool :=
  c_isalpha c || c_isdigit c

/-- Characters allowed in identifiers: `isalnum(c) || c == '_'`. -/
def ident_char (c : Char) : Bool :=
  c_isalnum c || c = '_'

/- ================= Lexical helpers (`trim`, `get_indent`, ...) ================= -/

/-- `trim_left` from the source. -/
def trim_left (l : List Char) : List Char :=
  l.dropWhile c_isspace

/-- Right-trim, written structurally (the source scans back from the end;
the result is the same). -/
def trim_right : List Char → List Char
  | [] => []
  | c :: rest =>
    match trim_right rest with
    | [] => if c_isspace c then [] else [c]
    | r => c :: r

/-- `trim` from the source: left-trim then right-trim. -/
def trim (l : List Char) : List Char :=
  trim_right (trim_left l)

/-- `get_indent`: spaces count 1, tabs count 4, stop at the first other char. -/
def get_indent : List Char → Nat
  | [] => 0
  | c :: rest =>
    if c = ' ' then 1 + get_indent rest
    else if c = '\t' then 4 + get_indent rest
    else 0

/-- `starts_with` (the source's `strncmp(str, prefix, strlen(prefix)) == 0`). -/
def starts_with : List Char → List Char → Bool
  | _, [] => true
  | [], _ :: _ => false
  | c :: l, d :: p => if c = d then starts_with l p else false

/-- `strstr(l, pat) != NULL`. -/
def contains_sub (l pat : List Char) : Bool :=
  match l with
  | [] => starts_with [] pat
  | _ :: rest => starts_with l pat || contains_sub rest pat

/-- `strchr(l, c) != NULL`. -/
def has_char (l : List Char) (c : Char) : Bool :=
  l.any (fun d => d = c)

/-- `is_empty_or_comment`. -/
def is_empty_or_comment (l : List Char) : Bool :=
  match trim_left l with
  | [] => true
  | c :: _ => c = '#'

/-- `ends_with_brace`: last non-whitespace character is `{`. -/
def ends_with_brace (l : List Char) : Bool :=
  (trim_right l).getLast? = some '\x7b'

/-- `is_closing_brace`: first non-whitespace char is `}` followed by
end-of-line, whitespace or `#`. -/
def is_closing_brace (l : List Char) : Bool :=
  match trim_left l with
  | '\x7d' :: rest =>
    match rest with
    | [] => true
    | c :: _ => c_isspace c || c = '#'
  | _ => false

/-- `strip_trailing_brace`: if the last non-whitespace char is `{`, remove it
and the whitespace before it; otherwise return the line unchanged. -/
def strip_trailing_brace (l : List Char) : List Char :=
  if (trim_right l).getLast? = some '\x7b' then trim_right ((trim_right l).dropLast) else l

/-- Everything strictly before the last occurrence of `ch`
(`*strrchr(l, ch) = '\0'`); `l` unchanged if `ch` does not occur. -/
def cut_at_last (ch : Char) (l : List Char) : List Char :=
  if has_char l ch then ((l.reverse.dropWhile (fun d => decide (d ≠ ch))).tail).reverse else l

/-- `process_line` cuts its working copy at the first `#`
(`char* comment = strchr(line, '#'); if (comment) *comment = '\0';`). -/
def strip_comment (l : List Char) : List Char :=
  l.takeWhile (fun d => decide (d ≠ '#'))

/- ================= `replace_time_funcs` ================= -/

/-- `replace_time_funcs`: textual substitution of `time.now()` and
`date.now()` by `(int)time(NULL)` and of `clock.now()` by
`((double)clock() / CLOCKS_PER_SEC)`. -/
def replace_time_funcs : List Char → List Char
  | 't' :: 'i' :: 'm' :: 'e' :: '.' :: 'n' :: 'o' :: 'w' :: '(' :: ')' :: rest =>
      String.toList "(int)time(NULL)" ++ replace_time_funcs rest
  | 'd' :: 'a' :: 't' :: 'e' :: '.' :: 'n' :: 'o' :: 'w' :: '(' :: ')' :: rest =>
      String.toList "(int)time(NULL)" ++ replace_time_funcs rest
  | 'c' :: 'l' :: 'o' :: 'c' :: 'k' :: '.' :: 'n' :: 'o' :: 'w' :: '(' :: ')' :: rest =>
      String.toList "((double)clock() / CLOCKS_PER_SEC)" ++ replace_time_funcs rest
  | c :: rest => c :: replace_time_funcs rest
  | [] => []

/- ================= Output buffers and errors ================= -/

def append_main (s : Machine) (str : List Char) : Machine :=
  { s with main_code := s.main_code ++ str }

/-- Append to the body of the most recently declared function
(`g_funcs[g_func_count - 1]`); no-op when there is none. -/
def append_func (s : Machine) (str : List Char) : Machine :=
  match s.funcs with
  | [] => s
  | f :: rest => { s with funcs := { f with body := f.body ++ str } :: rest }

/-- `emit_no_log` / the buffer-writing part of `emit`. -/
def emit_no_log (s : Machine) (str : List Char) : Machine :=
  if s.in_function then append_func s str else append_main s str

/-- `add_error`: record a diagnostic (capacity `MAX_ERRORS = 256`,
message truncated to 511 chars). -/
def add_error (s : Machine) (msg : List Char) (sev : Severity) : Machine :=
  if s.errors.length < 256 then
    { s with errors := s.errors ++ [⟨msg.take 511, s.current_line, sev⟩] }
  else s

def has_errors (errs : List CompilerError) : Bool :=
  errs.any (fun e => e.severity = Severity.error)

/- ================= Symbol table ================= -/

/-- `get_var_type`: first match wins. -/
def get_var_type : List Variable → List Char → VarType
  | [], _ => VarType.unknown
  | v :: rest, n => if v.name = n then v.type else get_var_type rest n

/-- Const flag of the first match (used only in theorem statements). -/
def get_var_const : List Variable → List Char → Option Bool
  | [], _ => none
  | v :: rest, n => if v.name = n then some v.is_const else get_var_const rest n

/-- Overwrite type and const flag of the first entry named `n`. -/
def set_var_first : List Variable → List Char → VarType → Bool → List Variable
  | [], _, _, _ => []
  | v :: rest, n, t, c =>
    if v.name = n then { v with type := t, is_const := c } :: rest
    else v :: set_var_first rest n t c

/-- `register_var`: the source makes a single pass that updates the first
matching entry and otherwise appends (capacity `MAX_VARS = 1024`, stored
name truncated to 255 chars). -/
def register_var (s : Machine) (name : List Char) (t : VarType) (c : Bool) : Machine :=
  if s.vars.any (fun v => v.name = name) then
    { s with vars := set_var_first s.vars name t c }
  else if s.vars.length < 1024 then
    { s with vars := s.vars ++ [⟨name.take 255, t, c⟩] }
  else add_error s (String.toList "Maximum variable limit reached") Severity.error

/- ================= Expression type inference ================= -/

/-- `infer_expr_type`.  After the leading-identifier lookup fails, every
remaining source branch (including the `V[...]` base lookup) returns
`TYPE_INT`, which the final branches reflect. -/
def infer_expr_type (vars : List Variable) (expr : List Char) : VarType :=
  let e := trim expr
  if e.head? = some '"' then VarType.string
  else if e = String.toList "true" || e = String.toList "false" then VarType.bool
  else if e.head? = some '(' && has_char e ',' then VarType.tuple
  else if e.head? = some '[' then VarType.list
  else if e.head? = some '\x7b' then VarType.dict
  else if (has_char e '.' && !(has_char e '"')) &&
          e.all (fun c => c_isdigit c || c = '.' || c = '-') then VarType.float
  else if decide (e ≠ []) && e.all (fun c => c_isdigit c || c = '-') then VarType.int
  else
    let var_name := e.takeWhile ident_char
    let vt := get_var_type vars var_name
    if vt ≠ VarType.unknown then vt
    else if has_char e '[' then
      let base := trim (e.takeWhile (fun d => decide (d ≠ '[')))
      let bt := get_var_type vars base
      if bt = VarType.list then VarType.int
      else if bt = VarType.string then VarType.int
      else VarType.int
    else VarType.int

/- ================= Block stack management ================= -/

/-- `push_block` (capacity `MAX_BLOCKS = 256`); the logging call is
diagnostic-only and not modelled. -/
def push_block (s : Machine) (indent : Nat) (k : BlockKind) (ub : Bool) : Machine :=
  if s.blocks.length < 256 then
    { s with blocks := ⟨indent, s.current_line, k, false, ub⟩ :: s.blocks }
  else add_error s (String.toList "Maximum block nesting depth exceeded") Severity.error

/-- `close_block`: clear the in-function flag when popping a `func` entry,
pop, then emit `}` - to `g_main_code`, since the flag was already cleared. -/
def close_block (s : Machine) : Machine :=
  match s.blocks with
  | [] => s
  | b :: rest =>
    let s1 := if b.kind = BlockKind.func then { s with in_function := false } else s
    emit_no_log { s1 with blocks := rest } (String.toList "\x7d\n")

/-- `close_brace_block`. -/
def close_brace_block (s : Machine) : Machine :=
  match s.blocks with
  | [] => add_error s (String.toList "\x27\x7d\x27 without matching \x27\x7b\x27") Severity.error
  | b :: _ =>
    let s1 :=
      if b.uses_braces = false then
        add_error s (String.toList "Closing \x27\x7d\x27 for block not opened with \x27\x7b\x27") Severity.warning
      else s
    close_block s1

/-- The loop body of `auto_close_blocks_to_indent`; each iteration pops one
block, so `s.blocks.length` steps of fuel drain the loop. -/
def auto_close_fuel : Nat → Nat → Machine → Machine
  | 0, _, s => s
  | fuel + 1, ni, s =>
    match s.blocks with
    | [] => s
    | b :: _ =>
      if b.indent ≥ ni ∧ b.closed_by_end = false ∧ b.uses_braces = false then
        if b.kind = BlockKind.func then
          if ni ≤ b.indent then close_block s else s
        else auto_close_fuel fuel ni (close_block s)
      else s

/-- `auto_close_blocks_to_indent`. -/
def auto_close (ni : Nat) (s : Machine) : Machine :=
  auto_close_fuel s.blocks.length ni s

/-- `handle_end`.  After `close_block` pops the stack, the source re-reads
the (now stale) array slot of the popped entry; here that entry is `b`. -/
def handle_end (s : Machine) : Machine :=
  match s.blocks with
  | [] => add_error s (String.toList "\x27end\x27 without matching block") Severity.error
  | b :: _ =>
    let s1 :=
      if b.uses_braces then
        add_error s (String.toList "Using \x27end\x27 to close block opened with \x27\x7b\x27 - use \x27\x7d\x27 instead") Severity.warning
      else s
    let s2 := close_block s1
    if b.kind = BlockKind.for_in then emit_no_log s2 (String.toList "\x7d\n") else s2

/- ================= Statement handlers ================= -/

/-- `handle_variable_decl`. -/
def handle_variable_decl (s : Machine) (line : List Char) (is_const : Bool) : Machine :=
  let p := if is_const then trim_left (line.drop 5) else line
  let parsed : Option (List Char × VarType × List Char) :=
    if starts_with p (String.toList "int ") then some (String.toList "int", VarType.int, p.drop 4)
    else if starts_with p (String.toList "float ") then some (String.toList "float", VarType.float, p.drop 6)
    else if starts_with p (String.toList "bool ") then some (String.toList "bool", VarType.bool, p.drop 5)
    else if starts_with p (String.toList "string ") then some (String.toList "char*", VarType.string, p.drop 7)
    else if starts_with p (String.toList "list ") then some (String.toList "List", VarType.list, p.drop 5)
    else if starts_with p (String.toList "dict ") then some (String.toList "Dict", VarType.dict, p.drop 5)
    else if starts_with p (String.toList "tuple ") then some (String.toList "Tuple", VarType.tuple, p.drop 6)
    else none
  match parsed with
  | none => add_error s (String.toList "Unknown type in variable declaration") Severity.error
  | some (type_str, vt, rest) =>
    let q := trim_left rest
    let name := q.takeWhile ident_char
    if name = [] then add_error s (String.toList "Missing variable name in declaration") Severity.error
    else
      let q2 := trim_left (q.dropWhile ident_char)
      let s1 := register_var s name vt is_const
      let pre := if is_const then String.toList "const " else []
      match q2 with
      | '=' :: after =>
        let v := trim_left after
        if v = [] then
          let s2 := add_error s1 (String.toList "Missing value after \x27=\x27 in variable declaration") Severity.error
          emit_no_log s2 (pre ++ type_str ++ [' '] ++ name ++ String.toList " = 0;\n")
        else
          let v := replace_time_funcs v
          emit_no_log s1 (pre ++ type_str ++ [' '] ++ name ++ String.toList " = " ++ v ++ String.toList ";\n")
      | _ =>
        let def_val : List Char :=
          if vt = VarType.int then String.toList "0"
          else if vt = VarType.string then String.toList "NULL"
          else if vt = VarType.list then String.toList "new_list()"
          else if vt = VarType.dict then String.toList "new_dict()"
          else if vt = VarType.tuple then String.toList "new_tuple()"
          else []
        if def_val = [] then
          emit_no_log s1 (pre ++ type_str ++ [' '] ++ name ++ String.toList ";\n")
        else
          emit_no_log s1 (pre ++ type_str ++ [' '] ++ name ++ String.toList " = " ++ def_val ++ String.toList ";\n")

/-- The text between the first `(` (exclusive) and the last `)` (exclusive);
used by `handle_print`.  (For dispatched lines the first `(` precedes the
last `)`, so the source's pointer arithmetic agrees with this slice.) -/
def paren_slice (line : List Char) : List Char :=
  cut_at_last ')' ((line.dropWhile (fun d => decide (d ≠ '('))).tail)

/-- The C text `handle_print` emits for an expression of a given
inferred type. -/
def print_code : VarType → List Char → List Char
  | VarType.string, e => String.toList "printf(\"%s\\n\", " ++ e ++ String.toList ");\n"
  | VarType.bool, e =>
      String.toList "printf(\"%s\\n\", (" ++ e ++ String.toList ") ? \"true\" : \"false\");\n"
  | VarType.float, e => String.toList "printf(\"%f\\n\", " ++ e ++ String.toList ");\n"
  | VarType.list, e => String.toList "print_list(&" ++ e ++ String.toList ");\n"
  | VarType.tuple, e => String.toList "print_tuple(&" ++ e ++ String.toList ");\n"
  | _, e => String.toList "printf(\"%d\\n\", (int)(" ++ e ++ String.toList "));\n"

/-- `handle_print`. -/
def handle_print (s : Machine) (line : List Char) : Machine :=
  if has_char line '(' = false then
    add_error s (String.toList "Missing \x27(\x27 in print statement") Severity.error
  else if has_char line ')' = false then
    add_error s (String.toList "Missing \x27)\x27 in print statement") Severity.error
  else
    let expr := trim (paren_slice line)
    if expr = [] then add_error s (String.toList "Empty print statement") Severity.error
    else
      let expr := replace_time_funcs expr
      let t := infer_expr_type s.vars expr
      emit_no_log s (print_code t expr)

/-- Shared header parsing of `if` / `elif` / `while`: skip the keyword
(`kw_len` chars after the left trim), strip a trailing `{` when present,
cut at the last `:`, and trim. -/
def cond_of (line : List Char) (kw_len : Nat) (hb : Bool) : List Char :=
  let p := trim_left ((trim_left line).drop kw_len)
  let p := if hb then strip_trailing_brace p else p
  trim (cut_at_last ':' p)

/-- `handle_if` (receives the original, comment-included line). -/
def handle_if (s : Machine) (line : List Char) (hb : Bool) : Machine :=
  let c := cond_of line 2 hb
  let s1 := if c = [] then add_error s (String.toList "Missing condition in if statement") Severity.error else s
  let c := if c = [] then String.toList "1" else c
  let c := replace_time_funcs c
  let s2 := emit_no_log s1 (String.toList "if (" ++ c ++ String.toList ") \x7b\n")
  push_block s2 (get_indent line) BlockKind.if_ hb

/-- The in-place rewrite of the top-of-stack entry performed by
`handle_elif` / `handle_else` (guarded by `g_block_depth > 0`):
`strcpy(g_blocks[depth-1].type, ...); g_blocks[depth-1].uses_braces = has_brace;`. -/
def retag_top (s : Machine) (k : BlockKind) (hb : Bool) : Machine :=
  match s.blocks with
  | [] => s
  | b :: rest => { s with blocks := { b with kind := k, uses_braces := hb } :: rest }

/-- The effect of `retag_top` on the stack itself (statement-level helper). -/
def retag_shape (k : BlockKind) (hb : Bool) : List Block → List Block
  | [] => []
  | b :: rest => ⟨b.indent, b.line_num, k, b.closed_by_end, hb⟩ :: rest

/-- `handle_elif`: no pop; emit `} else if (...) {` and rewrite the
top-of-stack kind in place. -/
def handle_elif (s : Machine) (t : List Char) (hb : Bool) : Machine :=
  let bad :=
    match s.blocks with
    | [] => true
    | b :: _ => decide (b.kind ≠ BlockKind.if_ ∧ b.kind ≠ BlockKind.elif_)
  let s1 := if bad then add_error s (String.toList "\x27elif\x27 without matching \x27if\x27") Severity.error else s
  let c := cond_of t 4 hb
  let s2 := if c = [] then add_error s1 (String.toList "Missing condition in elif statement") Severity.error else s1
  let c := if c = [] then String.toList "1" else c
  let c := replace_time_funcs c
  let s3 := emit_no_log s2 (String.toList "\x7d else if (" ++ c ++ String.toList ") \x7b\n")
  retag_top s3 BlockKind.elif_ hb

/-- `handle_else`: no pop; emit `} else {` and rewrite the top-of-stack
kind in place. -/
def handle_else (s : Machine) (hb : Bool) : Machine :=
  let bad :=
    match s.blocks with
    | [] => true
    | b :: _ => decide (b.kind ≠ BlockKind.if_ ∧ b.kind ≠ BlockKind.elif_)
  let s1 :=
    if bad then
      add_error s (String.toList "\x27else\x27 without matching \x27if\x27 or \x27elif\x27") Severity.error
    else s
  let s2 := emit_no_log s1 (String.toList "\x7d else \x7b\n")
  retag_top s2 BlockKind.else_ hb

/-- `handle_while` (receives the original, comment-included line). -/
def handle_while (s : Machine) (line : List Char) (hb : Bool) : Machine :=
  let c := cond_of line 5 hb
  let s1 := if c = [] then add_error s (String.toList "Missing condition in while statement") Severity.error else s
  let c := if c = [] then String.toList "0" else c
  let c := replace_time_funcs c
  let s2 := emit_no_log s1 (String.toList "while (" ++ c ++ String.toList ") \x7b\n")
  push_block s2 (get_indent line) BlockKind.while_ hb

/-- Scan the `for ... to` start value: stop at whitespace or at a `to`
prefix (`strncmp(p, "to", 2)`). -/
def take_until_to : List Char → List Char
  | 't' :: 'o' :: _ => []
  | c :: rest => if c_isspace c then [] else c :: take_until_to rest
  | [] => []

/-- The remainder corresponding to `take_until_to`. -/
def drop_until_to : List Char → List Char
  | 't' :: 'o' :: rest => 't' :: 'o' :: rest
  | c :: rest => if c_isspace c then c :: rest else drop_until_to rest
  | [] => []

/-- The function name parsed by `handle_func`: skip `func`, strip a
trailing `{` when present, cut at the first `:`, then read an identifier
(stored capped at 255 chars). -/
def func_name_of (line : List Char) (hb : Bool) : List Char :=
  let p := trim_left ((trim_left line).drop 4)
  let p := if hb then strip_trailing_brace p else p
  let p := p.takeWhile (fun d => decide (d ≠ ':'))
  (p.takeWhile ident_char).take 255

/-- `handle_func` (receives the original, comment-included line). -/
def handle_func (s : Machine) (line : List Char) (hb : Bool) : Machine :=
  let name := func_name_of line hb
  if name = [] then add_error s (String.toList "Missing function name") Severity.error
  else if name = String.toList "main" then
    let s1 := add_error s (String.toList "\x27func main\x27 is ignored - compiler generates its own main()") Severity.warning
    { s1 with in_function := false }
  else
    let s1 :=
      (s.funcs.filter (fun f => f.name = name)).foldl
        (fun acc _ =>
          add_error acc (String.toList "Duplicate function definition: \x27" ++ name ++ String.toList "\x27") Severity.error)
        s
    let s2 :=
      if s1.funcs.length < 512 then { s1 with funcs := ⟨name, []⟩ :: s1.funcs }
      else add_error s1 (String.toList "Maximum function limit reached") Severity.error
    let s3 := { s2 with in_function := true, func_indent := get_indent line }
    push_block s3 (get_indent line) BlockKind.func hb

/-- `handle_for_in` (receives the original, comment-included line). -/
def handle_for_in (s : Machine) (line : List Char) (hb : Bool) : Machine :=
  let p := trim_left ((trim_left line).drop 3)
  let var := (p.takeWhile ident_char).take 63
  let s1 := if var = [] then add_error s (String.toList "Missing loop variable in for-in statement") Severity.error else s
  let var := if var = [] then String.toList "_item" else var
  let p := trim_left (p.dropWhile ident_char)
  let s2 :=
    if starts_with p (String.toList "in") then s1
    else add_error s1 (String.toList "Missing \x27in\x27 keyword in for-in statement") Severity.error
  let p := if starts_with p (String.toList "in") then trim_left (p.drop 2) else p
  let iterable := trim ((p.takeWhile (fun c => decide (c ≠ ':') && decide (c ≠ '\x7b') && !c_isspace c)).take 255)
  let s3 := if iterable = [] then add_error s2 (String.toList "Missing iterable in for-in statement") Severity.error else s2
  let iterable := if iterable = [] then String.toList "\"\"" else iterable
  let iter_type := infer_expr_type s3.vars iterable
  let iter_type := if iterable.head? = some '"' then VarType.string else iter_type
  let idx := ['_'] ++ var ++ String.toList "_idx"
  let code_and_vt : List Char × VarType :=
    match iter_type with
    | VarType.string =>
      (String.toList "\x7b char* _" ++ var ++ String.toList "_str = " ++ iterable ++ String.toList ";\n" ++
       String.toList "for (int " ++ idx ++ String.toList " = 0; _" ++ var ++ String.toList "_str[" ++ idx ++
       String.toList "]; " ++ idx ++ String.toList "++) \x7b\n" ++
       String.toList "    char " ++ var ++ String.toList " = _" ++ var ++ String.toList "_str[" ++ idx ++
       String.toList "];\n", VarType.int)
    | VarType.list =>
      (String.toList "for (int " ++ idx ++ String.toList " = 0; " ++ idx ++ String.toList " < " ++ iterable ++
       String.toList ".size; " ++ idx ++ String.toList "++) \x7b\n" ++
       String.toList "    int " ++ var ++ String.toList " = " ++ iterable ++ String.toList ".data[" ++ idx ++
       String.toList "];\n", VarType.int)
    | VarType.dict =>
      (String.toList "for (int " ++ idx ++ String.toList " = 0; " ++ idx ++ String.toList " < " ++ iterable ++
       String.toList ".size; " ++ idx ++ String.toList "++) \x7b\n" ++
       String.toList "    char* " ++ var ++ String.toList " = " ++ iterable ++ String.toList ".keys[" ++ idx ++
       String.toList "];\n", VarType.string)
    | VarType.tuple =>
      (String.toList "for (int " ++ idx ++ String.toList " = 0; " ++ idx ++ String.toList " < " ++ iterable ++
       String.toList ".size; " ++ idx ++ String.toList "++) \x7b\n" ++
       String.toList "    int " ++ var ++ String.toList " = " ++ iterable ++ String.toList ".data[" ++ idx ++
       String.toList "];\n", VarType.int)
    | _ =>
      (String.toList "\x7b char* _" ++ var ++ String.toList "_str = (char*)(" ++ iterable ++ String.toList ");\n" ++
       String.toList "for (int " ++ idx ++ String.toList " = 0; _" ++ var ++ String.toList "_str && _" ++ var ++
       String.toList "_str[" ++ idx ++ String.toList "]; " ++ idx ++ String.toList "++) \x7b\n" ++
       String.toList "    char " ++ var ++ String.toList " = _" ++ var ++ String.toList "_str[" ++ idx ++
       String.toList "];\n", VarType.int)
  let s4 := register_var s3 var code_and_vt.2 false
  let s5 := emit_no_log s4 code_and_vt.1
  push_block s5 (get_indent line) BlockKind.for_in hb

/-- `handle_for` (receives the original, comment-included line); dispatches
to `handle_for_in` when the header contains `" in "`. -/
def handle_for (s : Machine) (line : List Char) (hb : Bool) : Machine :=
  let p0 := trim_left ((trim_left line).drop 3)
  if contains_sub p0 (String.toList " in ") then handle_for_in s line hb
  else
    let p := if hb then strip_trailing_brace p0 else p0
    let p := trim (cut_at_last ':' p)
    let var := (p.takeWhile ident_char).take 63
    let s1 := if var = [] then add_error s (String.toList "Missing loop variable in for statement") Severity.error else s
    let var := if var = [] then String.toList "_i" else var
    let p := trim_left (p.dropWhile ident_char)
    let s2 :=
      match p with
      | '=' :: _ => s1
      | _ => add_error s1 (String.toList "Missing \x27=\x27 in for loop") Severity.error
    let p := match p with
      | '=' :: rest => rest
      | _ => p
    let p := trim_left p
    let start_val := (take_until_to p).take 63
    let p := drop_until_to p
    let s3 := if start_val = [] then add_error s2 (String.toList "Missing start value in for loop") Severity.error else s2
    let start_val := if start_val = [] then String.toList "0" else start_val
    let p := trim_left p
    let s4 :=
      if starts_with p (String.toList "to") then s3
      else add_error s3 (String.toList "Missing \x27to\x27 keyword in for loop") Severity.error
    let p := if starts_with p (String.toList "to") then p.drop 2 else p
    let step_parse : Machine × List Char × List Char :=
      match p with
      | '(' :: rest =>
        let st := (rest.takeWhile (fun d => decide (d ≠ ')'))).take 63
        let rest2 := rest.dropWhile (fun d => decide (d ≠ ')'))
        let s5 :=
          match rest2 with
          | ')' :: _ => s4
          | _ => add_error s4 (String.toList "Missing \x27)\x27 in for loop step") Severity.error
        let rest3 :=
          match rest2 with
          | ')' :: r => r
          | _ => rest2
        let s6 := if st = [] then add_error s5 (String.toList "Empty step value in for loop") Severity.error else s5
        let st := if st = [] then String.toList "1" else st
        (s6, st, rest3)
      | _ => (s4, String.toList "1", p)
    let s7 := step_parse.1
    let step := step_parse.2.1
    let p := trim_left step_parse.2.2
    let end_val := (trim p).take 63
    let s8 := if end_val = [] then add_error s7 (String.toList "Missing end value in for loop") Severity.error else s7
    let end_val := if end_val = [] then String.toList "0" else end_val
    let start_val := replace_time_funcs start_val
    let end_val := replace_time_funcs end_val
    let step := replace_time_funcs step
    let code :=
      if step = String.toList "1" then
        String.toList "for (int " ++ var ++ String.toList " = " ++ start_val ++ String.toList "; " ++ var ++
        String.toList " <= " ++ end_val ++ String.toList "; " ++ var ++ String.toList "++) \x7b\n"
      else
        String.toList "for (int " ++ var ++ String.toList " = " ++ start_val ++ String.toList "; " ++ var ++
        String.toList " <= " ++ end_val ++ String.toList "; " ++ var ++ String.toList " += " ++ step ++
        String.toList ") \x7b\n"
    let s9 := emit_no_log s8 code
    let s10 := register_var s9 var VarType.int false
    push_block s10 (get_indent line) BlockKind.for_ hb

/-- `handle_append`. -/
def handle_append (s : Machine) (t : List Char) : Machine :=
  if has_char t '(' = false then
    add_error s (String.toList "Missing \x27(\x27 in append statement") Severity.error
  else if has_char t ')' = false then
    add_error s (String.toList "Missing \x27)\x27 in append statement") Severity.error
  else
    let args := cut_at_last ')' ((t.dropWhile (fun d => decide (d ≠ '('))).tail)
    if has_char args ',' = false then
      add_error s (String.toList "Missing \x27,\x27 in append - expected: append(list, value)") Severity.error
    else
      let list_name := trim (args.takeWhile (fun d => decide (d ≠ ',')))
      let value := trim ((args.dropWhile (fun d => decide (d ≠ ','))).tail)
      if list_name = [] then add_error s (String.toList "Missing list name in append") Severity.error
      else if value = [] then add_error s (String.toList "Missing value in append") Severity.error
      else
        let lt := get_var_type s.vars list_name
        let s1 :=
          if lt ≠ VarType.list ∧ lt ≠ VarType.unknown then
            add_error s (String.toList "\x27" ++ list_name ++ String.toList "\x27 is not a list") Severity.error
          else s
        let value := replace_time_funcs value
        emit_no_log s1 (String.toList "list_append(&" ++ list_name ++ String.toList ", " ++ value ++ String.toList ");\n")

/-- The identifier-aware rewriting loop of `handle_raw_statement`:
an identifier of semantic type `list` immediately followed by `[`
becomes `name.data[`; everything else is copied.  `cur` is the
identifier being accumulated (empty when outside an identifier). -/
def raw_rewrite_aux (vars : List Variable) (cur : List Char) : List Char → List Char
  | [] => cur
  | c :: rest =>
    if cur = [] then
      if c_isalpha c || c = '_' then raw_rewrite_aux vars [c] rest
      else c :: raw_rewrite_aux vars [] rest
    else
      if ident_char c then raw_rewrite_aux vars (cur ++ [c]) rest
      else
        (if c = '[' ∧ get_var_type vars cur = VarType.list then cur ++ String.toList ".data" else cur) ++
        c :: raw_rewrite_aux vars [] rest

def raw_rewrite (vars : List Variable) (l : List Char) : List Char :=
  raw_rewrite_aux vars [] l

/-- `handle_raw_statement`.  (The leading-identifier scan that only feeds
the FUNC_CALL/STMT log events is diagnostic-only and not modelled.) -/
def handle_raw_statement (s : Machine) (t : List Char) : Machine :=
  let p := trim t
  if p = [] then s
  else
    let p := replace_time_funcs p
    emit_no_log s (raw_rewrite s.vars p ++ String.toList ";\n")

/- ================= Line classification and processing ================= -/

/-- The statement form a line is dispatched to; mirrors the chain of
checks in `process_line`. -/
inductive Stmt
  | empty
  | closeBrace
  | endTok
  | decl (is_const : Bool)
  | printStmt
  | ifStmt
  | elifStmt
  | elseStmt
  | whileStmt
  | forStmt
  | funcStmt
  | appendStmt
  | dictOp
  | rawStmt
deriving DecidableEq

/-- Dispatch on an already-trimmed, comment-stripped line. -/
def classify_t (t : List Char) : Stmt :=
  if is_closing_brace t then Stmt.closeBrace
    else if t = String.toList "end" then Stmt.endTok
    else if starts_with t (String.toList "const ") then Stmt.decl true
    else if starts_with t (String.toList "int ") || starts_with t (String.toList "float ") ||
            starts_with t (String.toList "bool ") || starts_with t (String.toList "string ") ||
            starts_with t (String.toList "list ") || starts_with t (String.toList "dict ") ||
            starts_with t (String.toList "tuple ") then Stmt.decl false
    else if starts_with t (String.toList "print(") then Stmt.printStmt
    else if starts_with t (String.toList "if ") then Stmt.ifStmt
    else if starts_with t (String.toList "elif ") then Stmt.elifStmt
    else if starts_with t (String.toList "else:") || starts_with t (String.toList "else \x7b") ||
            t = String.toList "else" then Stmt.elseStmt
    else if starts_with t (String.toList "while ") then Stmt.whileStmt
    else if starts_with t (String.toList "for ") then Stmt.forStmt
    else if starts_with t (String.toList "func ") then Stmt.funcStmt
    else if starts_with t (String.toList "append(") then Stmt.appendStmt
    else if starts_with t (String.toList "dset(") || starts_with t (String.toList "dget(") then Stmt.dictOp
    else Stmt.rawStmt

def classify (original : List Char) : Stmt :=
  if is_empty_or_comment (strip_comment original) then Stmt.empty
  else classify_t (trim (strip_comment original))

/-- The indentation auto-close step of `process_line`: only outside raw
mode, with a non-empty stack, and when the trimmed line does not start
with `elif` or `else`. -/
def maybe_auto_close (raw : Bool) (s : Machine) (original : List Char) : Machine :=
  if raw = false ∧ s.blocks ≠ [] ∧
     (starts_with (trim (strip_comment original)) (String.toList "elif") ||
      starts_with (trim (strip_comment original)) (String.toList "else")) = false then
    auto_close (get_indent (strip_comment original)) s
  else s

/-- The dispatch step of `process_line`, split on the classified form
(`s` has the line counter already bumped).  `if` / `while` / `for` /
`func` handlers receive the original line; the others receive the
trimmed, comment-stripped text. -/
def process_dispatch (raw : Bool) (s : Machine) (original : List Char) : Stmt → Machine
  | Stmt.empty => s
  | Stmt.closeBrace => close_brace_block s
  | Stmt.endTok => handle_end s
  | Stmt.decl is_const =>
      handle_variable_decl (maybe_auto_close raw s original) (trim (strip_comment original)) is_const
  | Stmt.printStmt => handle_print (maybe_auto_close raw s original) (trim (strip_comment original))
  | Stmt.ifStmt =>
      handle_if (maybe_auto_close raw s original) original (ends_with_brace (trim (strip_comment original)))
  | Stmt.elifStmt =>
      handle_elif (maybe_auto_close raw s original) (trim (strip_comment original))
        (ends_with_brace (trim (strip_comment original)))
  | Stmt.elseStmt =>
      handle_else (maybe_auto_close raw s original) (ends_with_brace (trim (strip_comment original)))
  | Stmt.whileStmt =>
      handle_while (maybe_auto_close raw s original) original (ends_with_brace (trim (strip_comment original)))
  | Stmt.forStmt =>
      handle_for (maybe_auto_close raw s original) original (ends_with_brace (trim (strip_comment original)))
  | Stmt.funcStmt =>
      handle_func (maybe_auto_close raw s original) original (ends_with_brace (trim (strip_comment original)))
  | Stmt.appendStmt => handle_append (maybe_auto_close raw s original) (trim (strip_comment original))
  | Stmt.dictOp =>
      emit_no_log (emit_no_log (maybe_auto_close raw s original) (trim (strip_comment original)))
        (String.toList ";\n")
  | Stmt.rawStmt => handle_raw_statement (maybe_auto_close raw s original) (trim (strip_comment original))

/-- `process_line`: bump the line counter, classify the comment-stripped
copy, then dispatch. -/
def process_line (raw : Bool) (s : Machine) (original : List Char) : Machine :=
  process_dispatch raw { s with current_line := s.current_line + 1 } original (classify original)

/- ================= End-of-input drain and output assembly ================= -/

def kind_str : BlockKind → List Char
  | BlockKind.if_ => String.toList "if"
  | BlockKind.elif_ => String.toList "elif"
  | BlockKind.else_ => String.toList "else"
  | BlockKind.while_ => String.toList "while"
  | BlockKind.for_ => String.toList "for"
  | BlockKind.for_in => String.toList "for_in"
  | BlockKind.func => String.toList "func"

/-- The message `compile_file` builds for a block left open at end of
input: `Unclosed '<kind>' block started at line <n> - missing '<}|end>'`. -/
def unclosed_msg (b : Block) : List Char :=
  String.toList "Unclosed \x27" ++ kind_str b.kind ++ String.toList "\x27 block started at line " ++
  (Nat.repr b.line_num).toList ++ String.toList " - missing \x27" ++
  (if b.uses_braces then String.toList "\x7d" else String.toList "end") ++ String.toList "\x27"

/-- The error record produced for such a block (message stored truncated,
line number attributed to the block's opening line). -/
def unclosed_err (b : Block) : CompilerError :=
  ⟨(unclosed_msg b).take 511, b.line_num, Severity.error⟩

/-- The end-of-input loop of `compile_file`: reattribute `g_current_line`
to the block's opening line, report an error when the mode is raw or the
block was brace-opened, and close; one block per iteration. -/
def drain_fuel (raw : Bool) : Nat → Machine → Machine
  | 0, s => s
  | fuel + 1, s =>
    match s.blocks with
    | [] => s
    | b :: _ =>
      let s1 := { s with current_line := b.line_num }
      let s2 := if raw || b.uses_braces then add_error s1 (unclosed_msg b) Severity.error else s1
      drain_fuel raw fuel (close_block s2)

def compile_drain (raw : Bool) (s : Machine) : Machine :=
  drain_fuel raw s.blocks.length s

/-- `compile_file` on an already-split line list: process every line, then
drain the remaining blocks, restoring `g_current_line` afterwards. -/
def compile_file (raw : Bool) (lines : List (List Char)) : Machine :=
  let s := lines.foldl (process_line raw) init_machine
  { compile_drain raw s with current_line := s.current_line }

/- The runtime blob (`STDLIB` in the source), prepended verbatim. -/
def STDLIB : List Char := String.toList (
  "#include <stdio.h>\n" ++
  "#include <stdlib.h>\n" ++
  "#include <string.h>\n" ++
  "#include <stdbool.h>\n" ++
  "#include <stdarg.h>\n" ++
  "#include <math.h>\n" ++
  "#include <time.h>\n" ++
  "#include <setjmp.h>\n" ++
  "\n" ++
  "/* List implementation */\n" ++
  "typedef struct \x7b\n" ++
  "    int* data;\n" ++
  "    int size;\n" ++
  "    int cap;\n" ++
  "\x7d List;\n" ++
  "\n" ++
  "static List new_list(void) \x7b\n" ++
  "    List l;\n" ++
  "    l.cap = 8;\n" ++
  "    l.size = 0;\n" ++
  "    l.data = (int*)malloc(sizeof(int) * l.cap);\n" ++
  "    return l;\n" ++
  "\x7d\n" ++
  "\n" ++
  "static void list_append(List* l, int val) \x7b\n" ++
  "    if (l->size >= l->cap) \x7b\n" ++
  "        l->cap *= 2;\n" ++
  "        l->data = (int*)realloc(l->data, sizeof(int) * l->cap);\n" ++
  "    \x7d\n" ++
  "    l->data[l->size++] = val;\n" ++
  "\x7d\n" ++
  "\n" ++
  "static void list_free(List* l) \x7b\n" ++
  "    free(l->data);\n" ++
  "    l->data = NULL;\n" ++
  "    l->size = 0;\n" ++
  "    l->cap = 0;\n" ++
  "\x7d\n" ++
  "\n" ++
  "static int list_len(List* l) \x7b\n" ++
  "    return l->size;\n" ++
  "\x7d\n" ++
  "\n" ++
  "static void print_list(List* l) \x7b\n" ++
  "    printf(\"[\");\n" ++
  "    for (int i = 0; i < l->size; i++) \x7b\n" ++
  "        printf(\"%d\", l->data[i]);\n" ++
  "        if (i < l->size - 1) printf(\", \");\n" ++
  "    \x7d\n" ++
  "    printf(\"]\\n" ++
  "\");\n" ++
  "\x7d\n" ++
  "\n" ++
  "static int* slice_arr(int* arr, int start, int end, int* out_len) \x7b\n" ++
  "    *out_len = end - start;\n" ++
  "    int* result = (int*)malloc(sizeof(int) * (*out_len));\n" ++
  "    for (int i = 0; i < *out_len; i++) \x7b\n" ++
  "        result[i] = arr[start + i];\n" ++
  "    \x7d\n" ++
  "    return result;\n" ++
  "\x7d\n" ++
  "\n" ++
  "/* Tuple implementation */\n" ++
  "typedef struct \x7b\n" ++
  "    int* data;\n" ++
  "    int size;\n" ++
  "\x7d Tuple;\n" ++
  "\n" ++
  "static Tuple new_tuple(void) \x7b\n" ++
  "    Tuple t;\n" ++
  "    t.size = 0;\n" ++
  "    t.data = NULL;\n" ++
  "    return t;\n" ++
  "\x7d\n" ++
  "\n" ++
  "static Tuple make_tuple(int count, ...) \x7b\n" ++
  "    Tuple t;\n" ++
  "    t.size = count;\n" ++
  "    t.data = (int*)malloc(sizeof(int) * count);\n" ++
  "    va_list args;\n" ++
  "    va_start(args, count);\n" ++
  "    for (int i = 0; i < count; i++) \x7b\n" ++
  "        t.data[i] = va_arg(args, int);\n" ++
  "    \x7d\n" ++
  "    va_end(args);\n" ++
  "    return t;\n" ++
  "\x7d\n" ++
  "\n" ++
  "static void print_tuple(Tuple* t) \x7b\n" ++
  "    printf(\"(\");\n" ++
  "    for (int i = 0; i < t->size; i++) \x7b\n" ++
  "        printf(\"%d\", t->data[i]);\n" ++
  "        if (i < t->size - 1) printf(\", \");\n" ++
  "    \x7d\n" ++
  "    printf(\")\\n" ++
  "\");\n" ++
  "\x7d\n" ++
  "\n" ++
  "static void tuple_free(Tuple* t) \x7b\n" ++
  "    free(t->data);\n" ++
  "    t->data = NULL;\n" ++
  "    t->size = 0;\n" ++
  "\x7d\n" ++
  "\n" ++
  "/* Dictionary implementation */\n" ++
  "#define DICT_MAX 256\n" ++
  "\n" ++
  "typedef struct \x7b\n" ++
  "    char* keys[DICT_MAX];\n" ++
  "    int vals[DICT_MAX];\n" ++
  "    int size;\n" ++
  "\x7d Dict;\n" ++
  "\n" ++
  "static Dict new_dict(void) \x7b\n" ++
  "    Dict d;\n" ++
  "    d.size = 0;\n" ++
  "    for (int i = 0; i < DICT_MAX; i++) \x7b\n" ++
  "        d.keys[i] = NULL;\n" ++
  "    \x7d\n" ++
  "    return d;\n" ++
  "\x7d\n" ++
  "\n" ++
  "static void dset(Dict* d, const char* key, int val) \x7b\n" ++
  "    for (int i = 0; i < d->size; i++) \x7b\n" ++
  "        if (d->keys[i] && strcmp(d->keys[i], key) == 0) \x7b\n" ++
  "            d->vals[i] = val;\n" ++
  "            return;\n" ++
  "        \x7d\n" ++
  "    \x7d\n" ++
  "    if (d->size < DICT_MAX) \x7b\n" ++
  "        d->keys[d->size] = strdup(key);\n" ++
  "        d->vals[d->size] = val;\n" ++
  "        d->size++;\n" ++
  "    \x7d\n" ++
  "\x7d\n" ++
  "\n" ++
  "static int dget(Dict* d, const char* key) \x7b\n" ++
  "    for (int i = 0; i < d->size; i++) \x7b\n" ++
  "        if (d->keys[i] && strcmp(d->keys[i], key) == 0) \x7b\n" ++
  "            return d->vals[i];\n" ++
  "        \x7d\n" ++
  "    \x7d\n" ++
  "    return 0;\n" ++
  "\x7d\n" ++
  "\n" ++
  "static void dict_free(Dict* d) \x7b\n" ++
  "    for (int i = 0; i < d->size; i++) \x7b\n" ++
  "        free(d->keys[i]);\n" ++
  "    \x7d\n" ++
  "    d->size = 0;\n" ++
  "\x7d\n" ++
  "\n" )

/-- `generate_output`: runtime blob, one prototype per user function, the
function bodies, then `main` wrapping `g_main_code`.  (`Machine.funcs` is
stored newest-first, so declaration order is its reverse.) -/
def generate_output (s : Machine) : List Char :=
  STDLIB ++
  (s.funcs.reverse.foldl
    (fun acc f => acc ++ String.toList "void " ++ f.name ++ String.toList "(void);\n") []) ++
  String.toList "\n" ++
  (s.funcs.reverse.foldl
    (fun acc f =>
      acc ++ String.toList "void " ++ f.name ++ String.toList "(void) \x7b\n" ++ f.body ++
      String.toList "\x7d\n\n") []) ++
  String.toList "int main(void) \x7b\n" ++ s.main_code ++ String.toList "    return 0;\n\x7d\n"

/- ================= Driver ================= -/

def is_raw_mode : CompileMode → Bool
  | CompileMode.raw => true
  | CompileMode.debug_raw => true
  | _ => false

/-- The generated C text for a mode: the mode reaches line processing only
through `is_raw_mode()` (the log mode selected from it is consumed
exclusively by the `stderr` logging functions). -/
def compiler_output (m : CompileMode) (lines : List (List Char)) : List Char :=
  generate_output (compile_file (is_raw_mode m) lines)

/-- The error-gate of `main`: after `compile_file` and `generate_output`,
`has_errors()` decides whether `output.c` is written (first component) and
the exit code (second component).  The downstream gcc invocation and the
optional auto-run are external collaborators and are not modelled; a
warning-only compilation reaches `write_c_file` and continues. -/
def driver_run (m : CompileMode) (lines : List (List Char)) : Option (List Char) × Nat :=
  let s := compile_file (is_raw_mode m) lines
  if has_errors s.errors then (none, 1)
  else (some (generate_output s), 0)

/- ================= Claim-level helper definitions ================= -/

/-- The closing discipline of a block (spec section 4.1): brace-opened
blocks close on `}`; otherwise in raw mode a block must be closed by
`end`; otherwise it is indentation-closed. -/
inductive Discipline
  | indent
  | brace
  | endkw
deriving DecidableEq

def block_discipline (raw : Bool) (b : Block) : Discipline :=
  if b.uses_braces then Discipline.brace
  else if raw then Discipline.endkw
  else Discipline.indent

/-- The claimed stack invariant: every `func` entry has only `func`
entries below it (the head of the list is the top of the stack). -/
def func_stack_ok : List Block → Bool
  | [] => true
  | b :: rest =>
    (decide (b.kind ≠ BlockKind.func) || rest.all (fun b2 => b2.kind = BlockKind.func)) &&
    func_stack_ok rest

/- ================= Supporting lemmas ================= -/

theorem add_error_vars (s : Machine) (m : List Char) (sev : Severity) :
    (add_error s m sev).vars = s.vars := by
  unfold add_error; split <;> rfl

theorem add_error_blocks (s : Machine) (m : List Char) (sev : Severity) :
    (add_error s m sev).blocks = s.blocks := by
  unfold add_error; split <;> rfl

theorem add_error_funcs (s : Machine) (m : List Char) (sev : Severity) :
    (add_error s m sev).funcs = s.funcs := by
  unfold add_error; split <;> rfl

theorem add_error_main_code (s : Machine) (m : List Char) (sev : Severity) :
    (add_error s m sev).main_code = s.main_code := by
  unfold add_error; split <;> rfl

theorem add_error_in_function (s : Machine) (m : List Char) (sev : Severity) :
    (add_error s m sev).in_function = s.in_function := by
  unfold add_error; split <;> rfl

theorem add_error_current_line (s : Machine) (m : List Char) (sev : Severity) :
    (add_error s m sev).current_line = s.current_line := by
  unfold add_error; split <;> rfl

theorem add_error_errors_lt (s : Machine) (m : List Char) (sev : Severity)
    (h : s.errors.length < 256) :
    (add_error s m sev).errors = s.errors ++ [⟨m.take 511, s.current_line, sev⟩] := by
  unfold add_error; rw [if_pos h]

theorem append_func_blocks (s : Machine) (str : List Char) :
    (append_func s str).blocks = s.blocks := by
  unfold append_func; split <;> rfl

theorem append_func_errors (s : Machine) (str : List Char) :
    (append_func s str).errors = s.errors := by
  unfold append_func; split <;> rfl

theorem append_func_vars (s : Machine) (str : List Char) :
    (append_func s str).vars = s.vars := by
  unfold append_func; split <;> rfl

theorem append_func_main_code (s : Machine) (str : List Char) :
    (append_func s str).main_code = s.main_code := by
  unfold append_func; split <;> rfl

theorem append_func_in_function (s : Machine) (str : List Char) :
    (append_func s str).in_function = s.in_function := by
  unfold append_func; split <;> rfl

theorem append_func_current_line (s : Machine) (str : List Char) :
    (append_func s str).current_line = s.current_line := by
  unfold append_func; split <;> rfl

theorem emit_no_log_blocks (s : Machine) (str : List Char) :
    (emit_no_log s str).blocks = s.blocks := by
  unfold emit_no_log; split
  · exact append_func_blocks s str
  · rfl

theorem emit_no_log_errors (s : Machine) (str : List Char) :
    (emit_no_log s str).errors = s.errors := by
  unfold emit_no_log; split
  · exact append_func_errors s str
  · rfl

theorem emit_no_log_vars (s : Machine) (str : List Char) :
    (emit_no_log s str).vars = s.vars := by
  unfold emit_no_log; split
  · exact append_func_vars s str
  · rfl

theorem emit_no_log_in_function (s : Machine) (str : List Char) :
    (emit_no_log s str).in_function = s.in_function := by
  unfold emit_no_log; split
  · exact append_func_in_function s str
  · rfl

theorem emit_no_log_current_line (s : Machine) (str : List Char) :
    (emit_no_log s str).current_line = s.current_line := by
  unfold emit_no_log; split
  · exact append_func_current_line s str
  · rfl

theorem close_block_blocks (s : Machine) :
    (close_block s).blocks = s.blocks.tail := by
  cases hbs : s.blocks with
  | nil => simp [close_block, hbs]
  | cons b rest => simp [close_block, hbs, emit_no_log_blocks]

theorem close_block_errors (s : Machine) :
    (close_block s).errors = s.errors := by
  cases hbs : s.blocks with
  | nil => simp [close_block, hbs]
  | cons b rest =>
    simp only [close_block, hbs, emit_no_log_errors]
    split <;> rfl

theorem close_block_vars (s : Machine) :
    (close_block s).vars = s.vars := by
  cases hbs : s.blocks with
  | nil => simp [close_block, hbs]
  | cons b rest =>
    simp only [close_block, hbs, emit_no_log_vars]
    split <;> rfl

theorem close_block_current_line (s : Machine) :
    (close_block s).current_line = s.current_line := by
  cases hbs : s.blocks with
  | nil => simp [close_block, hbs]
  | cons b rest =>
    simp only [close_block, hbs, emit_no_log_current_line]
    split <;> rfl

theorem auto_close_fuel_blocks (fuel : Nat) :
    ∀ (ni : Nat) (s : Machine), ∃ k, (auto_close_fuel fuel ni s).blocks = s.blocks.drop k := by
  induction fuel with
  | zero => intro ni s; exact ⟨0, rfl⟩
  | succ n ih =>
    intro ni s
    cases hbs : s.blocks with
    | nil => exact ⟨0, by simp [auto_close_fuel, hbs]⟩
    | cons b rest =>
      simp only [auto_close_fuel, hbs]
      by_cases h1 : b.indent ≥ ni ∧ b.closed_by_end = false ∧ b.uses_braces = false
      · rw [if_pos h1]
        by_cases h2 : b.kind = BlockKind.func
        · rw [if_pos h2]
          by_cases h3 : ni ≤ b.indent
          · refine ⟨1, ?_⟩
            rw [if_pos h3, close_block_blocks, hbs]
            rfl
          · exact ⟨0, by rw [if_neg h3]; exact hbs⟩
        · rw [if_neg h2]
          obtain ⟨k, hk⟩ := ih ni (close_block s)
          refine ⟨k + 1, ?_⟩
          rw [hk, close_block_blocks, hbs]
          rfl
      · exact ⟨0, by rw [if_neg h1]; exact hbs⟩

theorem auto_close_fuel_errors (fuel : Nat) :
    ∀ (ni : Nat) (s : Machine), (auto_close_fuel fuel ni s).errors = s.errors := by
  induction fuel with
  | zero => intro ni s; rfl
  | succ n ih =>
    intro ni s
    cases hbs : s.blocks with
    | nil => simp [auto_close_fuel, hbs]
    | cons b rest =>
      simp only [auto_close_fuel, hbs]
      by_cases h1 : b.indent ≥ ni ∧ b.closed_by_end = false ∧ b.uses_braces = false
      · rw [if_pos h1]
        by_cases h2 : b.kind = BlockKind.func
        · rw [if_pos h2]
          by_cases h3 : ni ≤ b.indent
          · rw [if_pos h3, close_block_errors]
          · rw [if_neg h3]
        · rw [if_neg h2, ih, close_block_errors]
      · rw [if_neg h1]

theorem auto_close_blocks_drop (ni : Nat) (s : Machine) :
    ∃ k, (auto_close ni s).blocks = s.blocks.drop k :=
  auto_close_fuel_blocks s.blocks.length ni s

theorem auto_close_errors (ni : Nat) (s : Machine) :
    (auto_close ni s).errors = s.errors :=
  auto_close_fuel_errors s.blocks.length ni s

theorem starts_with_iff (l p : List Char) :
    starts_with l p = true ↔ ∃ r, l = p ++ r := by
  induction p generalizing l with
  | nil => simp [starts_with]
  | cons d p ih =>
    cases l with
    | nil => simp [starts_with]
    | cons c l =>
      constructor
      · intro h
        unfold starts_with at h
        split at h
        · next hcd =>
          obtain ⟨r, hr⟩ := ih l |>.mp h
          exact ⟨r, by rw [hcd, hr]; rfl⟩
        · exact absurd h (by simp)
      · rintro ⟨r, hr⟩
        rw [List.cons_append] at hr
        injection hr with h1 h2
        unfold starts_with
        rw [if_pos h1]
        exact ih l |>.mpr ⟨r, h2⟩

theorem starts_with_of_starts_with_append (l p q : List Char)
    (h : starts_with l (p ++ q) = true) : starts_with l p = true := by
  obtain ⟨r, hr⟩ := (starts_with_iff l (p ++ q)).mp h
  exact (starts_with_iff l p).mpr ⟨q ++ r, by rw [hr, List.append_assoc]⟩

theorem starts_with_self (l : List Char) : starts_with l l = true := by
  exact (starts_with_iff l l).mpr ⟨[], by simp⟩

/- ================= Claim theorems ================= -/

/-- Claim C1.  The claim states that a `print(expr)` statement applies the
list-indexing rewrite (`V[` to `V.data[` for a list-typed `V`) before
emission, so that `print(L[1])` for `list L` emits
`printf("%d\n", (int)(L.data[1]));`.  Evaluating the compiler at that
exact program shows the emitted code is `print_list(&L[1]);` - `handle_print`
performs no list-indexing rewrite (only `handle_raw_statement` does), and
the leading-identifier lookup types `L[1]` as a list, selecting
`print_list`.  No `.data` appears anywhere in the output. -/
theorem c1_print_list_index_failing_eval :
    (compile_file false
      [String.toList "list L", String.toList "append(L, 10)",
       String.toList "append(L, 20)", String.toList "print(L[1])"]).main_code =
      String.toList "List L = new_list();\nlist_append(&L, 10);\nlist_append(&L, 20);\nprint_list(&L[1]);\n" ∧
    contains_sub
      (compile_file false
        [String.toList "list L", String.toList "append(L, 10)",
         String.toList "append(L, 20)", String.toList "print(L[1])"]).main_code
      (String.toList ".data[") = false := by
  constructor
  · decide
  · decide

/-- Claim C2.  The claim states that closing a `for ... in` block emits
exactly two `}` tokens when the iterable is a declared string and exactly
one when it is a declared list, on every closure path.  Evaluating the
compiler shows the opposite association: the `end` closure of a
list-iterating `for_in` block emits two `}` (the extra brace in
`handle_end` fires for every `for_in` kind, though the list form opened
only one scope), while the indentation auto-close of a string-iterating
`for_in` block emits only one `}` (`auto_close_blocks_to_indent` never
emits the extra scope brace, though the string form opened two). -/
theorem c2_for_in_closure_braces_failing_eval :
    (compile_file false
      [String.toList "list L", String.toList "for x in L:",
       String.toList "    print(x)", String.toList "end"]).main_code =
      String.toList "List L = new_list();\nfor (int _x_idx = 0; _x_idx < L.size; _x_idx++) \x7b\n    int x = L.data[_x_idx];\nprintf(\"%d\\n\", (int)(x));\n\x7d\n\x7d\n" ∧
    (compile_file false
      [String.toList "string s = \"ab\"", String.toList "for c in s:",
       String.toList "    print(c)", String.toList "print(1)"]).main_code =
      String.toList "char* s = \"ab\";\n\x7b char* _c_str = s;\nfor (int _c_idx = 0; _c_str[_c_idx]; _c_idx++) \x7b\n    char c = _c_str[_c_idx];\nprintf(\"%d\\n\", (int)(c));\n\x7d\nprintf(\"%d\\n\", (int)(1));\n" := by
  constructor
  · decide
  · decide

/-- Claim C3.  The claim states that `time.now()` / `date.now()` /
`clock.now()` are substituted in every line before classification, in
particular in `dset(...)` and `dget(...)` lines.  Evaluating the compiler
shows that lines dispatched to the `dset(` / `dget(` branch are emitted
verbatim with `time.now()` intact (the substitution lives inside the
individual handlers, and that branch never calls it), while an ordinary
raw statement does get the substitution. -/
theorem c3_time_subst_dset_failing_eval :
    (compile_file false [String.toList "dset(d, \"k\", time.now())"]).main_code =
      String.toList "dset(d, \"k\", time.now());\n" ∧
    (compile_file false [String.toList "dget(d, \"k\") + clock.now()"]).main_code =
      String.toList "dget(d, \"k\") + clock.now();\n" ∧
    (compile_file false [String.toList "x = time.now()"]).main_code =
      String.toList "x = (int)time(NULL);\n" := by
  refine ⟨?_, ?_, ?_⟩
  · decide
  · decide
  · decide

/-- Claim C9.  The generated C text is identical across the modes
`optimized`, `debug` and `debug_opt`: the mode reaches line processing
only through `is_raw_mode()` (false for all three), and the log mode it
selects is consumed exclusively by the `stderr` logging functions, which
never touch the symbol table, block stack, buffers or error list. -/
theorem c9_output_mode_independent (lines : List (List Char)) :
    compiler_output CompileMode.debug lines = compiler_output CompileMode.optimized lines ∧
    compiler_output CompileMode.debug_opt lines = compiler_output CompileMode.optimized lines :=
  ⟨rfl, rfl⟩

theorem set_var_first_length (vs : List Variable) (n : List Char) (t : VarType) (c : Bool) :
    (set_var_first vs n t c).length = vs.length := by
  induction vs with
  | nil => rfl
  | cons v rest ih =>
    unfold set_var_first
    split
    · rfl
    · simp [ih]

theorem get_var_type_set_var_first (vs : List Variable) (n : List Char) (t : VarType) (c : Bool)
    (h : vs.any (fun v => v.name = n) = true) :
    get_var_type (set_var_first vs n t c) n = t := by
  induction vs with
  | nil => simp at h
  | cons v rest ih =>
    unfold set_var_first
    by_cases hv : v.name = n
    · rw [if_pos hv]
      unfold get_var_type
      rw [if_pos hv]
    · rw [if_neg hv]
      unfold get_var_type
      rw [if_neg hv]
      apply ih
      simp only [List.any_cons, Bool.or_eq_true, decide_eq_true_eq] at h
      rcases h with h | h
      · exact absurd h hv
      · simpa using h

theorem get_var_const_set_var_first (vs : List Variable) (n : List Char) (t : VarType) (c : Bool)
    (h : vs.any (fun v => v.name = n) = true) :
    get_var_const (set_var_first vs n t c) n = some c := by
  induction vs with
  | nil => simp at h
  | cons v rest ih =>
    unfold set_var_first
    by_cases hv : v.name = n
    · rw [if_pos hv]
      unfold get_var_const
      rw [if_pos hv]
    · rw [if_neg hv]
      unfold get_var_const
      rw [if_neg hv]
      apply ih
      simp only [List.any_cons, Bool.or_eq_true, decide_eq_true_eq] at h
      rcases h with h | h
      · exact absurd h hv
      · simpa using h

/-- Claim C8.  Variable registration is idempotent on the name: when the
name is already in the symbol table, `register_var` overwrites the type
and const flag of its (first) entry, the variable count is unchanged, no
error or warning record is added, and nothing else in the compiler state
changes. -/
theorem c8_register_var_idempotent (s : Machine) (name : List Char) (t : VarType) (c : Bool)
    (h : s.vars.any (fun v => v.name = name) = true) :
    (register_var s name t c).vars.length = s.vars.length ∧
    get_var_type (register_var s name t c).vars name = t ∧
    get_var_const (register_var s name t c).vars name = some c ∧
    (register_var s name t c).errors = s.errors ∧
    register_var s name t c = { s with vars := set_var_first s.vars name t c } := by
  unfold register_var
  rw [if_pos h]
  exact ⟨set_var_first_length s.vars name t c,
         get_var_type_set_var_first s.vars name t c h,
         get_var_const_set_var_first s.vars name t c h,
         rfl, rfl⟩

/-- Witness for C8 at a concrete state: re-registering `x` (already
present as a mutable int) as a const float keeps the count at 1, updates
type and flag, and records nothing. -/
theorem c8_register_var_idempotent_witness :
    (register_var { init_machine with vars := [⟨String.toList "x", VarType.int, false⟩] }
        (String.toList "x") VarType.float true).vars.length = 1 ∧
    get_var_type (register_var { init_machine with vars := [⟨String.toList "x", VarType.int, false⟩] }
        (String.toList "x") VarType.float true).vars (String.toList "x") = VarType.float ∧
    (register_var { init_machine with vars := [⟨String.toList "x", VarType.int, false⟩] }
        (String.toList "x") VarType.float true).errors = [] := by
  have h := c8_register_var_idempotent
    { init_machine with vars := [⟨String.toList "x", VarType.int, false⟩] }
    (String.toList "x") VarType.float true (by decide)
  exact ⟨h.1, h.2.1, h.2.2.2.1⟩

/-- Claim C5.  The driver decides failure only after the whole input is
processed (`compile_file` runs to completion before `has_errors()` is
consulted): with at least one error-severity record no C file is written
and the exit code is non-zero; with only warning-severity records the C
file is written and compilation succeeds. -/
theorem c5_driver_error_gate (m : CompileMode) (lines : List (List Char)) :
    ((∃ e ∈ (compile_file (is_raw_mode m) lines).errors, e.severity = Severity.error) →
      (driver_run m lines).1 = none ∧ (driver_run m lines).2 = 1) ∧
    ((∀ e ∈ (compile_file (is_raw_mode m) lines).errors, e.severity = Severity.warning) →
      (driver_run m lines).1 =
        some (generate_output (compile_file (is_raw_mode m) lines)) ∧
      (driver_run m lines).2 = 0) := by
  constructor
  · rintro ⟨e, he, hsev⟩
    have hh : has_errors (compile_file (is_raw_mode m) lines).errors = true := by
      simp only [has_errors, List.any_eq_true, decide_eq_true_eq]
      exact ⟨e, he, hsev⟩
    unfold driver_run
    rw [if_pos hh]
    exact ⟨rfl, rfl⟩
  · intro hall
    have hh : has_errors (compile_file (is_raw_mode m) lines).errors = false := by
      simp only [has_errors, List.any_eq_false, decide_eq_true_eq]
      intro e he hsev
      have := hall e he
      rw [hsev] at this
      exact Severity.noConfusion this
    unfold driver_run
    rw [if_neg (by simp [hh])]
    exact ⟨rfl, rfl⟩

/-- Witness for C5: `func main:` produces exactly one warning record and
no error, so the C file is written and the driver succeeds. -/
theorem c5_driver_error_gate_witness :
    (driver_run CompileMode.optimized [String.toList "func main:"]).1 =
      some (generate_output
        (compile_file (is_raw_mode CompileMode.optimized) [String.toList "func main:"])) ∧
    (driver_run CompileMode.optimized [String.toList "func main:"]).2 = 0 :=
  (c5_driver_error_gate CompileMode.optimized [String.toList "func main:"]).2 (by decide)

/-- Claim C10.  A print statement whose line lacks `(` or `)` or whose
extracted expression is empty records exactly one error-severity record
and appends nothing to any output buffer: the main body and the function
bodies are unchanged. -/
theorem c10_print_error_no_emit (s : Machine) (line : List Char)
    (h : has_char line '(' = false ∨ has_char line ')' = false ∨ trim (paren_slice line) = [])
    (hcap : s.errors.length < 256) :
    ∃ msg, handle_print s line = add_error s msg Severity.error ∧
      (handle_print s line).main_code = s.main_code ∧
      (handle_print s line).funcs = s.funcs ∧
      (handle_print s line).errors =
        s.errors ++ [⟨msg.take 511, s.current_line, Severity.error⟩] := by
  by_cases h1 : has_char line '(' = false
  · refine ⟨String.toList "Missing \x27(\x27 in print statement", ?_⟩
    have he : handle_print s line =
        add_error s (String.toList "Missing \x27(\x27 in print statement") Severity.error := by
      unfold handle_print
      rw [if_pos h1]
    exact ⟨he, by rw [he, add_error_main_code], by rw [he, add_error_funcs],
           by rw [he, add_error_errors_lt _ _ _ hcap]⟩
  · by_cases h2 : has_char line ')' = false
    · refine ⟨String.toList "Missing \x27)\x27 in print statement", ?_⟩
      have he : handle_print s line =
          add_error s (String.toList "Missing \x27)\x27 in print statement") Severity.error := by
        unfold handle_print
        rw [if_neg h1, if_pos h2]
      exact ⟨he, by rw [he, add_error_main_code], by rw [he, add_error_funcs],
             by rw [he, add_error_errors_lt _ _ _ hcap]⟩
    · have h3 : trim (paren_slice line) = [] := by
        rcases h with h | h | h
        · exact absurd h h1
        · exact absurd h h2
        · exact h
      refine ⟨String.toList "Empty print statement", ?_⟩
      have he : handle_print s line =
          add_error s (String.toList "Empty print statement") Severity.error := by
        unfold handle_print
        rw [if_neg h1, if_neg h2, h3]
        rfl
      exact ⟨he, by rw [he, add_error_main_code], by rw [he, add_error_funcs],
             by rw [he, add_error_errors_lt _ _ _ hcap]⟩

/-- Witness for C10: `print()` has both parentheses but an empty
expression; nothing is emitted and one error is recorded. -/
theorem c10_print_error_no_emit_witness :
    ∃ msg, handle_print init_machine (String.toList "print()") =
        add_error init_machine msg Severity.error ∧
      (handle_print init_machine (String.toList "print()")).main_code = init_machine.main_code ∧
      (handle_print init_machine (String.toList "print()")).funcs = init_machine.funcs ∧
      (handle_print init_machine (String.toList "print()")).errors =
        init_machine.errors ++ [⟨msg.take 511, init_machine.current_line, Severity.error⟩] :=
  c10_print_error_no_emit init_machine (String.toList "print()")
    (Or.inr (Or.inr (by decide))) (by decide)

theorem discipline_ne_indent (raw : Bool) (b : Block) :
    (decide (block_discipline raw b ≠ Discipline.indent)) = (raw || b.uses_braces) := by
  cases raw <;> cases h : b.uses_braces <;> simp [block_discipline, h]

theorem drain_fuel_spec (raw : Bool) (bs : List Block) :
    ∀ s : Machine, s.blocks = bs →
      s.errors.length + (bs.filter (fun b => raw || b.uses_braces)).length ≤ 256 →
      (drain_fuel raw bs.length s).blocks = [] ∧
      (drain_fuel raw bs.length s).errors =
        s.errors ++ (bs.filter (fun b => raw || b.uses_braces)).map unclosed_err := by
  induction bs with
  | nil =>
    intro s hs _
    exact ⟨by simpa using hs, by simp [drain_fuel]⟩
  | cons b rest ih =>
    intro s hs hcap
    have hstep : drain_fuel raw (rest.length + 1) s =
        drain_fuel raw rest.length
          (close_block
            (if raw || b.uses_braces then
              add_error { s with current_line := b.line_num } (unclosed_msg b) Severity.error
            else { s with current_line := b.line_num })) := by
      simp only [drain_fuel, hs]
    by_cases hp : (raw || b.uses_braces) = true
    · have hlt : s.errors.length < 256 := by
        have : (List.filter (fun b => raw || b.uses_braces) (b :: rest)).length ≥ 1 := by
          simp [List.filter_cons, hp]
        omega
      have herr :
          (close_block (if raw || b.uses_braces then
            add_error { s with current_line := b.line_num } (unclosed_msg b) Severity.error
          else { s with current_line := b.line_num })).errors =
          s.errors ++ [unclosed_err b] := by
        rw [close_block_errors, if_pos hp, add_error_errors_lt _ _ _ (by simpa using hlt)]
        rfl
      have hblk :
          (close_block (if raw || b.uses_braces then
            add_error { s with current_line := b.line_num } (unclosed_msg b) Severity.error
          else { s with current_line := b.line_num })).blocks = rest := by
        rw [close_block_blocks, if_pos hp, add_error_blocks]
        simp [hs]
      have hcap2 := hcap
      rw [List.filter_cons, if_pos (by simpa using hp)] at hcap2
      obtain ⟨hb1, hb2⟩ := ih _ hblk
        (by
          rw [herr]
          simp only [List.length_append, List.length_singleton, List.length_cons, List.length_nil] at hcap2 ⊢
          omega)
      refine ⟨?_, ?_⟩
      · rw [List.length_cons, hstep]
        exact hb1
      · rw [List.length_cons, hstep, hb2, herr]
        rw [List.filter_cons, if_pos (by simpa using hp)]
        simp
    · have hp' : (raw || b.uses_braces) = false := by
        cases hq : (raw || b.uses_braces) with
        | true => exact absurd hq hp
        | false => rfl
      have herr :
          (close_block (if raw || b.uses_braces then
            add_error { s with current_line := b.line_num } (unclosed_msg b) Severity.error
          else { s with current_line := b.line_num })).errors = s.errors := by
        rw [close_block_errors, if_neg (by simp [hp'])]
      have hblk :
          (close_block (if raw || b.uses_braces then
            add_error { s with current_line := b.line_num } (unclosed_msg b) Severity.error
          else { s with current_line := b.line_num })).blocks = rest := by
        rw [close_block_blocks, if_neg (by simp [hp'])]
        simp [hs]
      have hcap2 := hcap
      rw [List.filter_cons, if_neg (by simp [hp'])] at hcap2
      obtain ⟨hb1, hb2⟩ := ih _ hblk (by rw [herr]; omega)
      refine ⟨?_, ?_⟩
      · rw [List.length_cons, hstep]
        exact hb1
      · rw [List.length_cons, hstep, hb2, herr]
        rw [List.filter_cons, if_neg (by simp [hp'])]

/-- Claim C4.  At end of input, every block still on the stack whose
closing discipline is `indent` is closed automatically with no
diagnostic, and every block whose discipline is `brace` or `end` produces
exactly one error record attributed to the block's opening line
(`unclosed_err b` carries `b.line_num`); afterwards the stack is empty.
A block's discipline is `brace` when it was opened with `{`, otherwise
`end` in raw mode and `indent` in the auto-closing modes. -/
theorem c4_end_of_input_drain (raw : Bool) (s : Machine)
    (hcap : s.errors.length +
      (s.blocks.filter (fun b => decide (block_discipline raw b ≠ Discipline.indent))).length ≤ 256) :
    (compile_drain raw s).blocks = [] ∧
    (compile_drain raw s).errors =
      s.errors ++
        (s.blocks.filter (fun b => decide (block_discipline raw b ≠ Discipline.indent))).map
          unclosed_err := by
  have hfilter :
      s.blocks.filter (fun b => decide (block_discipline raw b ≠ Discipline.indent)) =
      s.blocks.filter (fun b => raw || b.uses_braces) :=
    List.filter_congr (fun b _ => discipline_ne_indent raw b)
  rw [hfilter] at hcap ⊢
  exact drain_fuel_spec raw s.blocks s rfl hcap

/-- Witness for C4 at a concrete stack: a brace-opened `if` (line 3) above
an indentation-disciplined `while` (line 1), non-raw mode: the drain
empties the stack and reports exactly one error, attributed to line 3. -/
theorem c4_end_of_input_drain_witness :
    (compile_drain false
      { init_machine with
        blocks := [⟨0, 3, BlockKind.if_, false, true⟩, ⟨0, 1, BlockKind.while_, false, false⟩],
        current_line := 5 }).blocks = [] ∧
    (compile_drain false
      { init_machine with
        blocks := [⟨0, 3, BlockKind.if_, false, true⟩, ⟨0, 1, BlockKind.while_, false, false⟩],
        current_line := 5 }).errors =
      [] ++
        (([⟨0, 3, BlockKind.if_, false, true⟩, ⟨0, 1, BlockKind.while_, false, false⟩] : List Block).filter
          (fun b => decide (block_discipline false b ≠ Discipline.indent))).map unclosed_err :=
  c4_end_of_input_drain false
    { init_machine with
      blocks := [⟨0, 3, BlockKind.if_, false, true⟩, ⟨0, 1, BlockKind.while_, false, false⟩],
      current_line := 5 }
    (by decide)

theorem retag_top_main_code (s : Machine) (k : BlockKind) (hb : Bool) :
    (retag_top s k hb).main_code = s.main_code := by
  cases hbs : s.blocks with
  | nil => simp [retag_top, hbs]
  | cons b rest => simp [retag_top, hbs]

theorem retag_top_funcs (s : Machine) (k : BlockKind) (hb : Bool) :
    (retag_top s k hb).funcs = s.funcs := by
  cases hbs : s.blocks with
  | nil => simp [retag_top, hbs]
  | cons b rest => simp [retag_top, hbs]

theorem retag_top_in_function (s : Machine) (k : BlockKind) (hb : Bool) :
    (retag_top s k hb).in_function = s.in_function := by
  cases hbs : s.blocks with
  | nil => simp [retag_top, hbs]
  | cons b rest => simp [retag_top, hbs]

theorem retag_top_blocks_nil (s : Machine) (k : BlockKind) (hb : Bool)
    (h : s.blocks = []) : (retag_top s k hb).blocks = [] := by
  simp [retag_top, h]

theorem retag_top_blocks_cons (s : Machine) (k : BlockKind) (hb : Bool)
    (b : Block) (rest : List Block) (h : s.blocks = b :: rest) :
    (retag_top s k hb).blocks = ⟨b.indent, b.line_num, k, b.closed_by_end, hb⟩ :: rest := by
  simp [retag_top, h]

theorem retag_top_blocks_eq (x : Machine) (k : BlockKind) (hb : Bool) (bs : List Block)
    (h : x.blocks = bs) :
    (retag_top x k hb).blocks = retag_shape k hb bs := by
  cases bs with
  | nil => exact retag_top_blocks_nil x k hb h
  | cons b rest => exact retag_top_blocks_cons x k hb b rest h

theorem emit_no_log_out_congr (s s' : Machine) (txt : List Char)
    (h1 : s'.in_function = s.in_function) (h2 : s'.main_code = s.main_code)
    (h3 : s'.funcs = s.funcs) :
    (emit_no_log s' txt).main_code = (emit_no_log s txt).main_code ∧
    (emit_no_log s' txt).funcs = (emit_no_log s txt).funcs := by
  unfold emit_no_log
  rw [h1]
  cases s.in_function with
  | true =>
    simp only [if_pos]
    unfold append_func
    rw [h3]
    cases hf : s.funcs with
    | nil => exact ⟨by simp [h2], by simp [h3, hf]⟩
    | cons f rest => exact ⟨by simp [h2], by simp⟩
  | false =>
    simp only [Bool.false_eq_true, if_neg, not_false_iff]
    unfold append_main
    exact ⟨by simp [h2], by simp [h3]⟩

theorem handle_elif_spec (s : Machine) (t : List Char) (hb : Bool) :
    ∃ c,
      (handle_elif s t hb).main_code =
        (emit_no_log s (String.toList "\x7d else if (" ++ c ++ String.toList ") \x7b\n")).main_code ∧
      (handle_elif s t hb).funcs =
        (emit_no_log s (String.toList "\x7d else if (" ++ c ++ String.toList ") \x7b\n")).funcs ∧
      (handle_elif s t hb).in_function = s.in_function ∧
      (handle_elif s t hb).blocks = retag_shape BlockKind.elif_ hb s.blocks := by
  unfold handle_elif
  refine ⟨replace_time_funcs (if cond_of t 4 hb = [] then String.toList "1" else cond_of t 4 hb), ?_⟩
  set s1 := if (match s.blocks with
    | [] => true
    | b :: _ => decide (b.kind ≠ BlockKind.if_ ∧ b.kind ≠ BlockKind.elif_)) = true then
      add_error s (String.toList "\x27elif\x27 without matching \x27if\x27") Severity.error
    else s with hs1
  have hs1f : s1.in_function = s.in_function ∧ s1.main_code = s.main_code ∧
      s1.funcs = s.funcs ∧ s1.blocks = s.blocks := by
    rw [hs1]
    split
    · exact ⟨add_error_in_function _ _ _, add_error_main_code _ _ _,
             add_error_funcs _ _ _, add_error_blocks _ _ _⟩
    · exact ⟨rfl, rfl, rfl, rfl⟩
  set s2 := if cond_of t 4 hb = [] then
      add_error s1 (String.toList "Missing condition in elif statement") Severity.error
    else s1 with hs2
  have hs2f : s2.in_function = s.in_function ∧ s2.main_code = s.main_code ∧
      s2.funcs = s.funcs ∧ s2.blocks = s.blocks := by
    rw [hs2]
    split
    · exact ⟨by rw [add_error_in_function]; exact hs1f.1,
             by rw [add_error_main_code]; exact hs1f.2.1,
             by rw [add_error_funcs]; exact hs1f.2.2.1,
             by rw [add_error_blocks]; exact hs1f.2.2.2⟩
    · exact hs1f
  obtain ⟨hm, hf⟩ := emit_no_log_out_congr s s2 _ hs2f.1 hs2f.2.1 hs2f.2.2.1
  have hblocks : (emit_no_log s2 (String.toList "\x7d else if (" ++
      replace_time_funcs (if cond_of t 4 hb = [] then String.toList "1" else cond_of t 4 hb) ++
      String.toList ") \x7b\n")).blocks = s.blocks := by
    rw [emit_no_log_blocks]; exact hs2f.2.2.2
  refine ⟨?_, ?_, ?_, ?_⟩
  · rw [retag_top_main_code]; exact hm
  · rw [retag_top_funcs]; exact hf
  · rw [retag_top_in_function, emit_no_log_in_function]; exact hs2f.1
  · exact retag_top_blocks_eq _ _ _ s.blocks hblocks

theorem handle_else_spec (s : Machine) (hb : Bool) :
    (handle_else s hb).main_code = (emit_no_log s (String.toList "\x7d else \x7b\n")).main_code ∧
    (handle_else s hb).funcs = (emit_no_log s (String.toList "\x7d else \x7b\n")).funcs ∧
    (handle_else s hb).in_function = s.in_function ∧
    (handle_else s hb).blocks = retag_shape BlockKind.else_ hb s.blocks := by
  unfold handle_else
  set s1 := if (match s.blocks with
    | [] => true
    | b :: _ => decide (b.kind ≠ BlockKind.if_ ∧ b.kind ≠ BlockKind.elif_)) = true then
      add_error s (String.toList "\x27else\x27 without matching \x27if\x27 or \x27elif\x27") Severity.error
    else s with hs1
  have hs1f : s1.in_function = s.in_function ∧ s1.main_code = s.main_code ∧
      s1.funcs = s.funcs ∧ s1.blocks = s.blocks := by
    rw [hs1]
    split
    · exact ⟨add_error_in_function _ _ _, add_error_main_code _ _ _,
             add_error_funcs _ _ _, add_error_blocks _ _ _⟩
    · exact ⟨rfl, rfl, rfl, rfl⟩
  obtain ⟨hm, hf⟩ := emit_no_log_out_congr s s1 _ hs1f.1 hs1f.2.1 hs1f.2.2.1
  have hblocks : (emit_no_log s1 (String.toList "\x7d else \x7b\n")).blocks = s.blocks := by
    rw [emit_no_log_blocks]; exact hs1f.2.2.2
  refine ⟨?_, ?_, ?_, ?_⟩
  · rw [retag_top_main_code]; exact hm
  · rw [retag_top_funcs]; exact hf
  · rw [retag_top_in_function, emit_no_log_in_function]; exact hs1f.1
  · exact retag_top_blocks_eq _ _ _ s.blocks hblocks

theorem classify_t_eval_probe (t : List Char) : classify_t t = classify_t t :=
  (classify_t.eq_def t).symm.trans (classify_t.eq_def t)

theorem classify_t_elif (t : List Char) (h : classify_t t = Stmt.elifStmt) :
    starts_with t (String.toList "elif ") = true := by
  rw [classify_t.eq_def] at h
  cases hc1 : is_closing_brace t with
  | true =>
    rw [hc1, if_pos rfl] at h
    exact absurd h (by decide)
  | false =>
    rw [hc1, if_neg Bool.false_ne_true] at h
    by_cases hc2 : t = String.toList "end"
    · rw [if_pos hc2] at h
      exact absurd h (by decide)
    · rw [if_neg hc2] at h
      cases hc3 : starts_with t (String.toList "const ") with
      | true =>
        rw [hc3, if_pos rfl] at h
        exact absurd h (by decide)
      | false =>
        rw [hc3, if_neg Bool.false_ne_true] at h
        cases hc4 : (starts_with t (String.toList "int ") || starts_with t (String.toList "float ") ||
        starts_with t (String.toList "bool ") || starts_with t (String.toList "string ") ||
        starts_with t (String.toList "list ") || starts_with t (String.toList "dict ") ||
        starts_with t (String.toList "tuple ")) with
        | true =>
          rw [hc4, if_pos rfl] at h
          exact absurd h (by decide)
        | false =>
          rw [hc4, if_neg Bool.false_ne_true] at h
          cases hc5 : starts_with t (String.toList "print(") with
          | true =>
            rw [hc5, if_pos rfl] at h
            exact absurd h (by decide)
          | false =>
            rw [hc5, if_neg Bool.false_ne_true] at h
            cases hc6 : starts_with t (String.toList "if ") with
            | true =>
              rw [hc6, if_pos rfl] at h
              exact absurd h (by decide)
            | false =>
              rw [hc6, if_neg Bool.false_ne_true] at h
              cases hc7 : starts_with t (String.toList "elif ") with
              | true =>
                rfl
              | false =>
                rw [hc7, if_neg Bool.false_ne_true] at h
                cases hc8 : (starts_with t (String.toList "else:") || starts_with t (String.toList "else \x7b") ||
        decide (t = String.toList "else")) with
                | true =>
                  rw [hc8, if_pos rfl] at h
                  exact absurd h (by decide)
                | false =>
                  rw [hc8, if_neg Bool.false_ne_true] at h
                  cases hc9 : starts_with t (String.toList "while ") with
                  | true =>
                    rw [hc9, if_pos rfl] at h
                    exact absurd h (by decide)
                  | false =>
                    rw [hc9, if_neg Bool.false_ne_true] at h
                    cases hc10 : starts_with t (String.toList "for ") with
                    | true =>
                      rw [hc10, if_pos rfl] at h
                      exact absurd h (by decide)
                    | false =>
                      rw [hc10, if_neg Bool.false_ne_true] at h
                      cases hc11 : starts_with t (String.toList "func ") with
                      | true =>
                        rw [hc11, if_pos rfl] at h
                        exact absurd h (by decide)
                      | false =>
                        rw [hc11, if_neg Bool.false_ne_true] at h
                        cases hc12 : starts_with t (String.toList "append(") with
                        | true =>
                          rw [hc12, if_pos rfl] at h
                          exact absurd h (by decide)
                        | false =>
                          rw [hc12, if_neg Bool.false_ne_true] at h
                          cases hc13 : (starts_with t (String.toList "dset(") || starts_with t (String.toList "dget(")) with
                          | true =>
                            rw [hc13, if_pos rfl] at h
                            exact absurd h (by decide)
                          | false =>
                            rw [hc13, if_neg Bool.false_ne_true] at h
                            exact absurd h (by decide)

theorem classify_t_else (t : List Char) (h : classify_t t = Stmt.elseStmt) :
    starts_with t (String.toList "else:") = true ∨
    starts_with t (String.toList "else \x7b") = true ∨
    t = String.toList "else" := by
  rw [classify_t.eq_def] at h
  cases hc1 : is_closing_brace t with
  | true =>
    rw [hc1, if_pos rfl] at h
    exact absurd h (by decide)
  | false =>
    rw [hc1, if_neg Bool.false_ne_true] at h
    by_cases hc2 : t = String.toList "end"
    · rw [if_pos hc2] at h
      exact absurd h (by decide)
    · rw [if_neg hc2] at h
      cases hc3 : starts_with t (String.toList "const ") with
      | true =>
        rw [hc3, if_pos rfl] at h
        exact absurd h (by decide)
      | false =>
        rw [hc3, if_neg Bool.false_ne_true] at h
        cases hc4 : (starts_with t (String.toList "int ") || starts_with t (String.toList "float ") ||
        starts_with t (String.toList "bool ") || starts_with t (String.toList "string ") ||
        starts_with t (String.toList "list ") || starts_with t (String.toList "dict ") ||
        starts_with t (String.toList "tuple ")) with
        | true =>
          rw [hc4, if_pos rfl] at h
          exact absurd h (by decide)
        | false =>
          rw [hc4, if_neg Bool.false_ne_true] at h
          cases hc5 : starts_with t (String.toList "print(") with
          | true =>
            rw [hc5, if_pos rfl] at h
            exact absurd h (by decide)
          | false =>
            rw [hc5, if_neg Bool.false_ne_true] at h
            cases hc6 : starts_with t (String.toList "if ") with
            | true =>
              rw [hc6, if_pos rfl] at h
              exact absurd h (by decide)
            | false =>
              rw [hc6, if_neg Bool.false_ne_true] at h
              cases hc7 : starts_with t (String.toList "elif ") with
              | true =>
                rw [hc7, if_pos rfl] at h
                exact absurd h (by decide)
              | false =>
                rw [hc7, if_neg Bool.false_ne_true] at h
                cases hc8 : (starts_with t (String.toList "else:") || starts_with t (String.toList "else \x7b") ||
        decide (t = String.toList "else")) with
                | true =>
                  rw [hc8, if_pos rfl] at h
                  have h8 := hc8
                  simp only [Bool.or_eq_true, decide_eq_true_eq] at h8
                  tauto
                | false =>
                  rw [hc8, if_neg Bool.false_ne_true] at h
                  cases hc9 : starts_with t (String.toList "while ") with
                  | true =>
                    rw [hc9, if_pos rfl] at h
                    exact absurd h (by decide)
                  | false =>
                    rw [hc9, if_neg Bool.false_ne_true] at h
                    cases hc10 : starts_with t (String.toList "for ") with
                    | true =>
                      rw [hc10, if_pos rfl] at h
                      exact absurd h (by decide)
                    | false =>
                      rw [hc10, if_neg Bool.false_ne_true] at h
                      cases hc11 : starts_with t (String.toList "func ") with
                      | true =>
                        rw [hc11, if_pos rfl] at h
                        exact absurd h (by decide)
                      | false =>
                        rw [hc11, if_neg Bool.false_ne_true] at h
                        cases hc12 : starts_with t (String.toList "append(") with
                        | true =>
                          rw [hc12, if_pos rfl] at h
                          exact absurd h (by decide)
                        | false =>
                          rw [hc12, if_neg Bool.false_ne_true] at h
                          cases hc13 : (starts_with t (String.toList "dset(") || starts_with t (String.toList "dget(")) with
                          | true =>
                            rw [hc13, if_pos rfl] at h
                            exact absurd h (by decide)
                          | false =>
                            rw [hc13, if_neg Bool.false_ne_true] at h
                            exact absurd h (by decide)

theorem classify_t_func (t : List Char) (h : classify_t t = Stmt.funcStmt) :
    starts_with t (String.toList "func ") = true := by
  rw [classify_t.eq_def] at h
  cases hc1 : is_closing_brace t with
  | true =>
    rw [hc1, if_pos rfl] at h
    exact absurd h (by decide)
  | false =>
    rw [hc1, if_neg Bool.false_ne_true] at h
    by_cases hc2 : t = String.toList "end"
    · rw [if_pos hc2] at h
      exact absurd h (by decide)
    · rw [if_neg hc2] at h
      cases hc3 : starts_with t (String.toList "const ") with
      | true =>
        rw [hc3, if_pos rfl] at h
        exact absurd h (by decide)
      | false =>
        rw [hc3, if_neg Bool.false_ne_true] at h
        cases hc4 : (starts_with t (String.toList "int ") || starts_with t (String.toList "float ") ||
        starts_with t (String.toList "bool ") || starts_with t (String.toList "string ") ||
        starts_with t (String.toList "list ") || starts_with t (String.toList "dict ") ||
        starts_with t (String.toList "tuple ")) with
        | true =>
          rw [hc4, if_pos rfl] at h
          exact absurd h (by decide)
        | false =>
          rw [hc4, if_neg Bool.false_ne_true] at h
          cases hc5 : starts_with t (String.toList "print(") with
          | true =>
            rw [hc5, if_pos rfl] at h
            exact absurd h (by decide)
          | false =>
            rw [hc5, if_neg Bool.false_ne_true] at h
            cases hc6 : starts_with t (String.toList "if ") with
            | true =>
              rw [hc6, if_pos rfl] at h
              exact absurd h (by decide)
            | false =>
              rw [hc6, if_neg Bool.false_ne_true] at h
              cases hc7 : starts_with t (String.toList "elif ") with
              | true =>
                rw [hc7, if_pos rfl] at h
                exact absurd h (by decide)
              | false =>
                rw [hc7, if_neg Bool.false_ne_true] at h
                cases hc8 : (starts_with t (String.toList "else:") || starts_with t (String.toList "else \x7b") ||
        decide (t = String.toList "else")) with
                | true =>
                  rw [hc8, if_pos rfl] at h
                  exact absurd h (by decide)
                | false =>
                  rw [hc8, if_neg Bool.false_ne_true] at h
                  cases hc9 : starts_with t (String.toList "while ") with
                  | true =>
                    rw [hc9, if_pos rfl] at h
                    exact absurd h (by decide)
                  | false =>
                    rw [hc9, if_neg Bool.false_ne_true] at h
                    cases hc10 : starts_with t (String.toList "for ") with
                    | true =>
                      rw [hc10, if_pos rfl] at h
                      exact absurd h (by decide)
                    | false =>
                      rw [hc10, if_neg Bool.false_ne_true] at h
                      cases hc11 : starts_with t (String.toList "func ") with
                      | true =>
                        rfl
                      | false =>
                        rw [hc11, if_neg Bool.false_ne_true] at h
                        cases hc12 : starts_with t (String.toList "append(") with
                        | true =>
                          rw [hc12, if_pos rfl] at h
                          exact absurd h (by decide)
                        | false =>
                          rw [hc12, if_neg Bool.false_ne_true] at h
                          cases hc13 : (starts_with t (String.toList "dset(") || starts_with t (String.toList "dget(")) with
                          | true =>
                            rw [hc13, if_pos rfl] at h
                            exact absurd h (by decide)
                          | false =>
                            rw [hc13, if_neg Bool.false_ne_true] at h
                            exact absurd h (by decide)

theorem classify_elifStmt_starts (line : List Char) (h : classify line = Stmt.elifStmt) :
    starts_with (trim (strip_comment line)) (String.toList "elif ") = true := by
  unfold classify at h
  split at h
  · exact absurd h (by decide)
  · exact classify_t_elif _ h

theorem classify_elseStmt_inv (line : List Char) (h : classify line = Stmt.elseStmt) :
    starts_with (trim (strip_comment line)) (String.toList "else:") = true ∨
    starts_with (trim (strip_comment line)) (String.toList "else \x7b") = true ∨
    trim (strip_comment line) = String.toList "else" := by
  unfold classify at h
  split at h
  · exact absurd h (by decide)
  · exact classify_t_else _ h

theorem classify_funcStmt_starts (line : List Char) (h : classify line = Stmt.funcStmt) :
    starts_with (trim (strip_comment line)) (String.toList "func ") = true := by
  unfold classify at h
  split at h
  · exact absurd h (by decide)
  · exact classify_t_func _ h

theorem maybe_auto_close_skip (raw : Bool) (s : Machine) (original : List Char)
    (hg : starts_with (trim (strip_comment original)) (String.toList "elif") = true ∨
          starts_with (trim (strip_comment original)) (String.toList "else") = true) :
    maybe_auto_close raw s original = s := by
  unfold maybe_auto_close
  rw [if_neg]
  rintro ⟨-, -, hfalse⟩
  rcases hg with hg | hg <;> rw [hg] at hfalse <;> simp at hfalse

theorem process_line_elif_red (raw : Bool) (s : Machine) (line : List Char)
    (h : classify line = Stmt.elifStmt) :
    process_line raw s line =
      handle_elif { s with current_line := s.current_line + 1 } (trim (strip_comment line))
        (ends_with_brace (trim (strip_comment line))) := by
  have hsw := classify_elifStmt_starts line h
  have hsw4 : starts_with (trim (strip_comment line)) (String.toList "elif") = true :=
    starts_with_of_starts_with_append _ _ [' '] (by
      rw [show String.toList "elif" ++ [' '] = String.toList "elif " from by decide]
      exact hsw)
  unfold process_line
  rw [h]
  simp only [process_dispatch]
  rw [maybe_auto_close_skip _ _ _ (Or.inl hsw4)]

theorem process_line_else_red (raw : Bool) (s : Machine) (line : List Char)
    (h : classify line = Stmt.elseStmt) :
    process_line raw s line =
      handle_else { s with current_line := s.current_line + 1 }
        (ends_with_brace (trim (strip_comment line))) := by
  have hsw4 : starts_with (trim (strip_comment line)) (String.toList "else") = true := by
    rcases classify_elseStmt_inv line h with h1 | h1 | h1
    · exact starts_with_of_starts_with_append _ _ [':'] (by
        rw [show String.toList "else" ++ [':'] = String.toList "else:" from by decide]
        exact h1)
    · exact starts_with_of_starts_with_append _ _ (String.toList " \x7b") (by
        rw [show String.toList "else" ++ String.toList " \x7b" = String.toList "else \x7b" from by decide]
        exact h1)
    · rw [h1]
      exact starts_with_self _
  unfold process_line
  rw [h]
  simp only [process_dispatch]
  rw [maybe_auto_close_skip _ _ _ (Or.inr hsw4)]

theorem process_line_func_red (raw : Bool) (s : Machine) (line : List Char)
    (h : classify line = Stmt.funcStmt) :
    process_line raw s line =
      handle_func (maybe_auto_close raw { s with current_line := s.current_line + 1 } line) line
        (ends_with_brace (trim (strip_comment line))) := by
  unfold process_line
  rw [h]
  rfl

theorem retag_shape_length (k : BlockKind) (hb : Bool) (bs : List Block) :
    (retag_shape k hb bs).length = bs.length := by
  cases bs <;> rfl

theorem retag_shape_drop_one (k : BlockKind) (hb : Bool) (bs : List Block) :
    (retag_shape k hb bs).drop 1 = bs.drop 1 := by
  cases bs <;> rfl

/-- Claim C6.  Processing an `elif` or `else` line never pops the block
stack: the resulting stack has the same depth, everything below the top
entry is untouched, the top entry (when one exists) is merely rewritten in
place to kind `elif` / `else` (`retag_shape` changes only the kind and the
brace flag of the head), indentation auto-close is skipped for such lines
(nothing is popped even when the line's indent would close blocks), the
in-function flag is untouched, and the emitted text is
`} else if (<cond>) {` or `} else {`. -/
theorem c6_elif_else_never_pops (raw : Bool) (s : Machine) (line : List Char)
    (h : classify line = Stmt.elifStmt ∨ classify line = Stmt.elseStmt) :
    (process_line raw s line).blocks.length = s.blocks.length ∧
    (process_line raw s line).blocks.drop 1 = s.blocks.drop 1 ∧
    (∃ k hb2, (k = BlockKind.elif_ ∨ k = BlockKind.else_) ∧
      (process_line raw s line).blocks = retag_shape k hb2 s.blocks) ∧
    (process_line raw s line).in_function = s.in_function ∧
    (∃ txt, ((∃ c, txt = String.toList "\x7d else if (" ++ c ++ String.toList ") \x7b\n") ∨
        txt = String.toList "\x7d else \x7b\n") ∧
      (process_line raw s line).main_code = (emit_no_log s txt).main_code ∧
      (process_line raw s line).funcs = (emit_no_log s txt).funcs) := by
  rcases h with h | h
  · rw [process_line_elif_red raw s line h]
    obtain ⟨c, hm, hf, hif, hblocks⟩ :=
      handle_elif_spec { s with current_line := s.current_line + 1 }
        (trim (strip_comment line)) (ends_with_brace (trim (strip_comment line)))
    have hsb : ({ s with current_line := s.current_line + 1 } : Machine).blocks = s.blocks := rfl
    rw [hsb] at hblocks
    obtain ⟨hm', hf'⟩ := emit_no_log_out_congr s { s with current_line := s.current_line + 1 }
      (String.toList "\x7d else if (" ++ c ++ String.toList ") \x7b\n") rfl rfl rfl
    refine ⟨?_, ?_, ?_, ?_, ?_⟩
    · rw [hblocks, retag_shape_length]
    · rw [hblocks, retag_shape_drop_one]
    · exact ⟨BlockKind.elif_, ends_with_brace (trim (strip_comment line)), Or.inl rfl, hblocks⟩
    · exact hif
    · exact ⟨String.toList "\x7d else if (" ++ c ++ String.toList ") \x7b\n",
        Or.inl ⟨c, rfl⟩, by rw [hm, hm'], by rw [hf, hf']⟩
  · rw [process_line_else_red raw s line h]
    obtain ⟨hm, hf, hif, hblocks⟩ :=
      handle_else_spec { s with current_line := s.current_line + 1 }
        (ends_with_brace (trim (strip_comment line)))
    have hsb : ({ s with current_line := s.current_line + 1 } : Machine).blocks = s.blocks := rfl
    rw [hsb] at hblocks
    obtain ⟨hm', hf'⟩ := emit_no_log_out_congr s { s with current_line := s.current_line + 1 }
      (String.toList "\x7d else \x7b\n") rfl rfl rfl
    refine ⟨?_, ?_, ?_, ?_, ?_⟩
    · rw [hblocks, retag_shape_length]
    · rw [hblocks, retag_shape_drop_one]
    · exact ⟨BlockKind.else_, ends_with_brace (trim (strip_comment line)), Or.inr rfl, hblocks⟩
    · exact hif
    · exact ⟨String.toList "\x7d else \x7b\n", Or.inr rfl, by rw [hm, hm'], by rw [hf, hf']⟩

/-- Witness for C6: an `elif y:` line over a machine whose stack holds one
open `if` block keeps the depth at 1. -/
theorem c6_elif_else_never_pops_witness :
    (process_line false
      { init_machine with blocks := [⟨0, 1, BlockKind.if_, false, false⟩], current_line := 1 }
      (String.toList "elif y:")).blocks.length =
    ({ init_machine with blocks := [⟨0, 1, BlockKind.if_, false, false⟩], current_line := 1 } : Machine).blocks.length :=
  (c6_elif_else_never_pops false
    { init_machine with blocks := [⟨0, 1, BlockKind.if_, false, false⟩], current_line := 1 }
    (String.toList "elif y:") (Or.inl (by decide))).1

theorem auto_close_fuel_current_line (fuel : Nat) :
    ∀ (ni : Nat) (s : Machine), (auto_close_fuel fuel ni s).current_line = s.current_line := by
  induction fuel with
  | zero => intro ni s; rfl
  | succ n ih =>
    intro ni s
    cases hbs : s.blocks with
    | nil => simp [auto_close_fuel, hbs]
    | cons b rest =>
      simp only [auto_close_fuel, hbs]
      by_cases h1 : b.indent ≥ ni ∧ b.closed_by_end = false ∧ b.uses_braces = false
      · rw [if_pos h1]
        by_cases h2 : b.kind = BlockKind.func
        · rw [if_pos h2]
          by_cases h3 : ni ≤ b.indent
          · rw [if_pos h3, close_block_current_line]
          · rw [if_neg h3]
        · rw [if_neg h2, ih, close_block_current_line]
      · rw [if_neg h1]

theorem maybe_auto_close_blocks_drop (raw : Bool) (s : Machine) (original : List Char) :
    ∃ k, (maybe_auto_close raw s original).blocks = s.blocks.drop k := by
  unfold maybe_auto_close
  split
  · exact auto_close_fuel_blocks s.blocks.length _ s
  · exact ⟨0, rfl⟩

theorem maybe_auto_close_current_line (raw : Bool) (s : Machine) (original : List Char) :
    (maybe_auto_close raw s original).current_line = s.current_line := by
  unfold maybe_auto_close
  split
  · exact auto_close_fuel_current_line s.blocks.length _ s
  · rfl

theorem foldl_add_error_blocks {α : Type} (l : List α) (s : Machine) (msg : List Char) (sev : Severity) :
    (l.foldl (fun acc _ => add_error acc msg sev) s).blocks = s.blocks := by
  induction l generalizing s with
  | nil => rfl
  | cons x xs ih => simp only [List.foldl_cons]; rw [ih, add_error_blocks]

theorem foldl_add_error_current_line {α : Type} (l : List α) (s : Machine) (msg : List Char) (sev : Severity) :
    (l.foldl (fun acc _ => add_error acc msg sev) s).current_line = s.current_line := by
  induction l generalizing s with
  | nil => rfl
  | cons x xs ih => simp only [List.foldl_cons]; rw [ih, add_error_current_line]

theorem handle_func_push (s : Machine) (line : List Char) (hb : Bool)
    (hname : func_name_of line hb ≠ [])
    (hmain : func_name_of line hb ≠ String.toList "main")
    (hcap : s.blocks.length < 256) :
    (handle_func s line hb).blocks =
      ⟨get_indent line, s.current_line, BlockKind.func, false, hb⟩ :: s.blocks ∧
    (handle_func s line hb).in_function = true := by
  unfold handle_func
  rw [if_neg hname, if_neg hmain]
  set s1 := (s.funcs.filter (fun f => f.name = func_name_of line hb)).foldl
    (fun acc _ =>
      add_error acc (String.toList "Duplicate function definition: \x27" ++ func_name_of line hb ++
        String.toList "\x27") Severity.error) s with hs1
  have h1b : s1.blocks = s.blocks := foldl_add_error_blocks _ s _ _
  have h1c : s1.current_line = s.current_line := foldl_add_error_current_line _ s _ _
  set s2 := if s1.funcs.length < 512 then { s1 with funcs := ⟨func_name_of line hb, []⟩ :: s1.funcs }
    else add_error s1 (String.toList "Maximum function limit reached") Severity.error with hs2
  have h2b : s2.blocks = s.blocks := by
    rw [hs2]; split
    · simpa using h1b
    · rw [add_error_blocks]; exact h1b
  have h2c : s2.current_line = s.current_line := by
    rw [hs2]; split
    · simpa using h1c
    · rw [add_error_current_line]; exact h1c
  unfold push_block
  rw [if_pos]
  · constructor
    · rw [← hs2, h2b, h2c]
    · rfl
  · rw [← hs2, h2b]
    exact hcap

/-- Amended C7 (proved): processing a `func`-classified line with a valid
name (non-empty, not `main`) pushes exactly one `func` entry on top of
whatever blocks survive the indentation auto-close - `handle_func` never
inspects the kinds beneath, so a `func` entry can sit above open non-func
blocks. -/
theorem c7_func_push_unconditional (raw : Bool) (s : Machine) (line : List Char)
    (h : classify line = Stmt.funcStmt)
    (hname : func_name_of line (ends_with_brace (trim (strip_comment line))) ≠ [])
    (hmain : func_name_of line (ends_with_brace (trim (strip_comment line))) ≠ String.toList "main")
    (hcap : s.blocks.length < 256) :
    ∃ k, (process_line raw s line).blocks =
        ⟨get_indent line, s.current_line + 1, BlockKind.func, false,
          ends_with_brace (trim (strip_comment line))⟩ :: s.blocks.drop k ∧
      (process_line raw s line).in_function = true := by
  rw [process_line_func_red raw s line h]
  obtain ⟨k, hk⟩ := maybe_auto_close_blocks_drop raw
    { s with current_line := s.current_line + 1 } line
  have hcl : (maybe_auto_close raw { s with current_line := s.current_line + 1 } line).current_line =
      s.current_line + 1 :=
    maybe_auto_close_current_line raw { s with current_line := s.current_line + 1 } line
  have hcap2 : (maybe_auto_close raw { s with current_line := s.current_line + 1 } line).blocks.length < 256 := by
    rw [hk]
    calc (({ s with current_line := s.current_line + 1 } : Machine).blocks.drop k).length
        ≤ ({ s with current_line := s.current_line + 1 } : Machine).blocks.length :=
          by simp
      _ < 256 := hcap
  obtain ⟨hpush, hinfn⟩ := handle_func_push
    (maybe_auto_close raw { s with current_line := s.current_line + 1 } line) line
    (ends_with_brace (trim (strip_comment line))) hname hmain hcap2
  exact ⟨k, by rw [hpush, hk, hcl], hinfn⟩

/-- Witness for amended C7, exhibiting the push above a non-func block:
after `if x > 0:` the stack holds an `if` entry, and the following
indented `func g:` line pushes a `func` entry on top of it. -/
theorem c7_func_push_unconditional_witness :
    ∃ k, (process_line false
        (List.foldl (process_line false) init_machine [String.toList "if x > 0:"])
        (String.toList "    func g:")).blocks =
      ⟨get_indent (String.toList "    func g:"),
        (List.foldl (process_line false) init_machine [String.toList "if x > 0:"]).current_line + 1,
        BlockKind.func, false,
        ends_with_brace (trim (strip_comment (String.toList "    func g:")))⟩ ::
        (List.foldl (process_line false) init_machine [String.toList "if x > 0:"]).blocks.drop k ∧
      (process_line false
        (List.foldl (process_line false) init_machine [String.toList "if x > 0:"])
        (String.toList "    func g:")).in_function = true :=
  c7_func_push_unconditional false
    (List.foldl (process_line false) init_machine [String.toList "if x > 0:"])
    (String.toList "    func g:") (by decide) (by decide) (by decide) (by decide)

/-- Counterexample to C7 as stated: after the two-line input
`if x > 0:` / `    func g:` the reachable block stack is
`[func, if]` (top first), i.e. a `func` entry sits directly above an open
non-func block, so the claimed invariant fails. -/
theorem c7_func_invariant_counterexample :
    (List.foldl (process_line false) init_machine
      [String.toList "if x > 0:", String.toList "    func g:"]).blocks.map Block.kind =
      [BlockKind.func, BlockKind.if_] ∧
    func_stack_ok (List.foldl (process_line false) init_machine
      [String.toList "if x > 0:", String.toList "    func g:"]).blocks = false := by
  constructor
  · decide
  · decide
